import Mathlib

/-
  Verification development for the TChecker guard/invariant/statement
  compilation pipeline:
  - src/include/tchecker/statement/statement.hh (statement AST)
  - src/include/tchecker/fsm/details/model.hh (model container)
  Collaborators that are declared but whose implementation files are not part
  of the extracted sources (expression AST, type checker, bytecode compiler,
  logger, static analysis) are modelled from the specification; each such
  definition carries a doc comment starting with: Modelled from the spec.
-/

namespace tchecker

/-- Modelled from the spec (sec 3, expression.hh is external): unary operators. -/
inductive unary_operator_t : Type
| neg : unary_operator_t
| lnot : unary_operator_t
deriving DecidableEq

/-- Modelled from the spec (sec 3): binary operators, arithmetic, comparison and conjunction. -/
inductive binary_operator_t : Type
| plus : binary_operator_t
| minus : binary_operator_t
| times : binary_operator_t
| div : binary_operator_t
| mod : binary_operator_t
| lt : binary_operator_t
| le : binary_operator_t
| eq : binary_operator_t
| neq : binary_operator_t
| ge : binary_operator_t
| gt : binary_operator_t
| land : binary_operator_t
deriving DecidableEq

/-- Modelled from the spec (sec 3, expression.hh is external): untyped expression AST.
Tagged variant: constant, variable reference, array access, unary op, binary op. -/
inductive expression_t : Type
| int_expr : Int → expression_t
| var_expr : String → expression_t
| array_expr : String → expression_t → expression_t
| unary_expr : unary_operator_t → expression_t → expression_t
| binary_expr : binary_operator_t → expression_t → expression_t → expression_t
deriving DecidableEq

/-- Modelled from the spec (sec 3): lvalue expressions, the strict subset of
expressions that may be assignment targets: variable reference or array access. -/
inductive lvalue_expression_t : Type
| var_expr : String → lvalue_expression_t
| array_expr : String → expression_t → lvalue_expression_t
deriving DecidableEq

/-- View of an lvalue expression as a plain expression (its access form). -/
def lvalue_expression_t.to_expression : lvalue_expression_t → expression_t
| lvalue_expression_t.var_expr x => expression_t.var_expr x
| lvalue_expression_t.array_expr x i => expression_t.array_expr x i

/-- Statement AST, from src/include/tchecker/statement/statement.hh:
nop_statement_t, assign_statement_t (lvalue, rvalue), sequence_statement_t (first, second). -/
inductive statement_t : Type
| nop_statement : statement_t
| assign_statement : lvalue_expression_t → expression_t → statement_t
| sequence_statement : statement_t → statement_t → statement_t
deriving DecidableEq

/-- Modelled from the spec (sec 4.A, the expression do_output bodies are external):
canonical pretty-printing of expressions. -/
def expression_to_string : expression_t → String
| expression_t.int_expr v => toString v
| expression_t.var_expr x => x
| expression_t.array_expr x i => x ++ "[" ++ expression_to_string i ++ "]"
| expression_t.unary_expr unary_operator_t.neg e => "-(" ++ expression_to_string e ++ ")"
| expression_t.unary_expr unary_operator_t.lnot e => "!(" ++ expression_to_string e ++ ")"
| expression_t.binary_expr op l r =>
  let ops : String :=
    match op with
    | binary_operator_t.plus => "+"
    | binary_operator_t.minus => "-"
    | binary_operator_t.times => "*"
    | binary_operator_t.div => "/"
    | binary_operator_t.mod => "%"
    | binary_operator_t.lt => "<"
    | binary_operator_t.le => "<="
    | binary_operator_t.eq => "=="
    | binary_operator_t.neq => "!="
    | binary_operator_t.ge => ">="
    | binary_operator_t.gt => ">"
    | binary_operator_t.land => "&&"
  "(" ++ expression_to_string l ++ ops ++ expression_to_string r ++ ")"

/-- Pretty-printing of lvalue expressions through their access form. -/
def lvalue_expression_to_string (l : lvalue_expression_t) : String :=
  expression_to_string l.to_expression

/-- Modelled from the spec (statement.hh declares do_output, bodies are external):
canonical pretty-printing of statements. -/
def statement_to_string : statement_t → String
| statement_t.nop_statement => "nop"
| statement_t.assign_statement l r =>
  lvalue_expression_to_string l ++ "=" ++ expression_to_string r
| statement_t.sequence_statement a b =>
  statement_to_string a ++ "; " ++ statement_to_string b

/-- Modelled from the spec (statement.hh declares do_clone, bodies are external):
structural deep clone of an expression, rebuilding every node. -/
def expression_t.clone : expression_t → expression_t
| expression_t.int_expr v => expression_t.int_expr v
| expression_t.var_expr x => expression_t.var_expr x
| expression_t.array_expr x i => expression_t.array_expr x i.clone
| expression_t.unary_expr op e => expression_t.unary_expr op e.clone
| expression_t.binary_expr op l r => expression_t.binary_expr op l.clone r.clone

/-- Modelled from the spec: structural deep clone of an lvalue expression. -/
def lvalue_expression_t.clone : lvalue_expression_t → lvalue_expression_t
| lvalue_expression_t.var_expr x => lvalue_expression_t.var_expr x
| lvalue_expression_t.array_expr x i => lvalue_expression_t.array_expr x i.clone

/-- Modelled from the spec (statement.hh do_clone of each subclass):
structural deep clone of a statement, rebuilding every node from cloned children. -/
def statement_t.clone : statement_t → statement_t
| statement_t.nop_statement => statement_t.nop_statement
| statement_t.assign_statement l r => statement_t.assign_statement l.clone r.clone
| statement_t.sequence_statement a b => statement_t.sequence_statement a.clone b.clone

/-- Number of heap nodes of an expression tree (every constructor is one allocation). -/
def expression_t.node_count : expression_t → Nat
| expression_t.int_expr _ => 1
| expression_t.var_expr _ => 1
| expression_t.array_expr _ i => 1 + i.node_count
| expression_t.unary_expr _ e => 1 + e.node_count
| expression_t.binary_expr _ l r => 1 + (l.node_count + r.node_count)

/-- Number of heap nodes of an lvalue expression tree. -/
def lvalue_expression_t.node_count : lvalue_expression_t → Nat
| lvalue_expression_t.var_expr _ => 1
| lvalue_expression_t.array_expr _ i => 1 + i.node_count

/-- Number of heap nodes of a statement tree, expression children included. -/
def statement_t.node_count : statement_t → Nat
| statement_t.nop_statement => 1
| statement_t.assign_statement l r => 1 + (l.node_count + r.node_count)
| statement_t.sequence_statement a b => 1 + (a.node_count + b.node_count)

/-- Allocation model for node identity: building an expression tree with a
fresh-address counter yields the list of addresses it occupies (preorder)
and the next free address. Each new-expression in the source is one address. -/
def expression_t.alloc : expression_t → Nat → List Nat × Nat
| expression_t.int_expr _, c => ([c], c + 1)
| expression_t.var_expr _, c => ([c], c + 1)
| expression_t.array_expr _ i, c =>
  let p := i.alloc (c + 1)
  (c :: p.1, p.2)
| expression_t.unary_expr _ e, c =>
  let p := e.alloc (c + 1)
  (c :: p.1, p.2)
| expression_t.binary_expr _ l r, c =>
  let p := l.alloc (c + 1)
  let q := r.alloc p.2
  (c :: (p.1 ++ q.1), q.2)

/-- Allocation model for lvalue expression trees. -/
def lvalue_expression_t.alloc : lvalue_expression_t → Nat → List Nat × Nat
| lvalue_expression_t.var_expr _, c => ([c], c + 1)
| lvalue_expression_t.array_expr _ i, c =>
  let p := i.alloc (c + 1)
  (c :: p.1, p.2)

/-- Allocation model for statement trees (addresses of the statement node and
of all its expression children, preorder). -/
def statement_t.alloc : statement_t → Nat → List Nat × Nat
| statement_t.nop_statement, c => ([c], c + 1)
| statement_t.assign_statement l r, c =>
  let p := l.alloc (c + 1)
  let q := r.alloc p.2
  (c :: (p.1 ++ q.1), q.2)
| statement_t.sequence_statement a b, c =>
  let p := a.alloc (c + 1)
  let q := b.alloc p.2
  (c :: (p.1 ++ q.1), q.2)

/-- Modelled from the spec (sec 7 kind 1; statement.hh documents the throw of
std::invalid_argument, the constructor body is external): the assign_statement_t
constructor. A null lvalue or null rvalue is rejected with std::invalid_argument;
otherwise the node is built owning both children. -/
def assign_statement_construct (lvalue : Option lvalue_expression_t)
    (rvalue : Option expression_t) : Except String statement_t :=
  match lvalue, rvalue with
  | some l, some r => Except.ok (statement_t.assign_statement l r)
  | _, _ => Except.error "invalid_argument"

/-- Modelled from the spec (sec 7 kind 1; statement.hh documents the throw of
std::invalid_argument, the constructor body is external): the sequence_statement_t
constructor. A null first or null second child is rejected with
std::invalid_argument; otherwise the node is built owning both children. -/
def sequence_statement_construct (first second : Option statement_t) :
    Except String statement_t :=
  match first, second with
  | some a, some b => Except.ok (statement_t.sequence_statement a b)
  | _, _ => Except.error "invalid_argument"

/-- Modelled from the spec (sec 6, log.hh is external): the logger records
error and warning entries, each a pair of a context string and a message.
The error count is the number of recorded errors. -/
structure log_t : Type where
  errors : List (String × String)
  warnings : List (String × String)
deriving DecidableEq

/-- The empty (fresh) logger. -/
def log_t.nil : log_t := ⟨[], []⟩

/-- Modelled from the spec: record an error entry. -/
def log_t.error (log : log_t) (context msg : String) : log_t :=
  ⟨log.errors ++ [(context, msg)], log.warnings⟩

/-- Modelled from the spec: record a warning entry. -/
def log_t.warning (log : log_t) (context msg : String) : log_t :=
  ⟨log.errors, log.warnings ++ [(context, msg)]⟩

/-- Modelled from the spec: number of errors reported to the logger. -/
def log_t.error_count (log : log_t) : Nat := log.errors.length

/-- Concatenation of two logger states (entries of the second appended). -/
def log_t.append (log delta : log_t) : log_t :=
  ⟨log.errors ++ delta.errors, log.warnings ++ delta.warnings⟩

/-- Modelled from the spec (sec 3): declaration of a (possibly array) bounded
integer variable: name, flat index, array size, value range. -/
structure intvar_decl : Type where
  name : String
  index : Nat
  dim : Nat
  low : Int
  high : Int
deriving DecidableEq

/-- Modelled from the spec (sec 3): declaration of a (possibly array) clock:
name, flat index, array size. -/
structure clock_decl : Type where
  name : String
  index : Nat
  dim : Nat
deriving DecidableEq

/-- Modelled from the spec (sec 4.B): name lookup among integer variables. -/
def lookup_intvar (intvars : List intvar_decl) (x : String) : Option intvar_decl :=
  intvars.find? (fun d => d.name == x)

/-- Modelled from the spec (sec 4.B): name lookup among clocks. -/
def lookup_clock (clocks : List clock_decl) (x : String) : Option clock_decl :=
  clocks.find? (fun d => d.name == x)

/-- Modelled from the spec (sec 3): type tags of typed AST nodes. -/
inductive expression_type_t : Type
| int_t : Int → Int → expression_type_t
| clock_t : expression_type_t
| clock_diff_t : expression_type_t
| bool_t : expression_type_t
| bad_t : expression_type_t
deriving DecidableEq

/-- Modelled from the spec (sec 3, typed_expression.hh is external): typed
expression AST, the mirror of the untyped AST with a type tag on every node;
variable and array nodes additionally carry the resolved flat index, array
nodes carry the declared array size. -/
inductive typed_expression_t : Type
| int_expr : expression_type_t → Int → typed_expression_t
| var_expr : expression_type_t → String → Nat → typed_expression_t
| array_expr : expression_type_t → String → Nat → Nat → typed_expression_t → typed_expression_t
| unary_expr : expression_type_t → unary_operator_t → typed_expression_t → typed_expression_t
| binary_expr : expression_type_t → binary_operator_t → typed_expression_t → typed_expression_t → typed_expression_t
deriving DecidableEq

/-- Type tag of the root node of a typed expression. -/
def typed_expression_t.etype : typed_expression_t → expression_type_t
| typed_expression_t.int_expr t _ => t
| typed_expression_t.var_expr t _ _ => t
| typed_expression_t.array_expr t _ _ _ _ => t
| typed_expression_t.unary_expr t _ _ => t
| typed_expression_t.binary_expr t _ _ _ => t

/-- Modelled from the spec (sec 3, typed_statement.hh is external): typed
statement AST; assignment targets are typed through their access form. -/
inductive typed_statement_t : Type
| nop_statement : typed_statement_t
| assign_statement : typed_expression_t → typed_expression_t → typed_statement_t
| sequence_statement : typed_statement_t → typed_statement_t → typed_statement_t
deriving DecidableEq

/-- Modelled from the spec (sec 4.D, statement typing): whether an assignment
between the two given root types is well typed: integer into integer, or a
clock reset to an integer whose static range is non-negative. -/
def assign_ok : expression_type_t → expression_type_t → Bool
| expression_type_t.int_t _ _, expression_type_t.int_t _ _ => true
| expression_type_t.clock_t, expression_type_t.int_t rlo _ => decide (0 ≤ rlo)
| _, _ => false

/-- A typed statement is bad when one of its assignments is ill typed
(sec 4.D statement typing; badness propagates to enclosing sequences). -/
def typed_statement_t.is_bad : typed_statement_t → Bool
| typed_statement_t.nop_statement => false
| typed_statement_t.assign_statement l r => ! assign_ok l.etype r.etype
| typed_statement_t.sequence_statement a b => a.is_bad || b.is_bad

/-- Pretty-printing of typed expressions, identical to the untyped form
(type tags are not printed). -/
def typed_expression_to_string : typed_expression_t → String
| typed_expression_t.int_expr _ v => toString v
| typed_expression_t.var_expr _ x _ => x
| typed_expression_t.array_expr _ x _ _ i => x ++ "[" ++ typed_expression_to_string i ++ "]"
| typed_expression_t.unary_expr _ unary_operator_t.neg e => "-(" ++ typed_expression_to_string e ++ ")"
| typed_expression_t.unary_expr _ unary_operator_t.lnot e => "!(" ++ typed_expression_to_string e ++ ")"
| typed_expression_t.binary_expr _ op l r =>
  let ops : String :=
    match op with
    | binary_operator_t.plus => "+"
    | binary_operator_t.minus => "-"
    | binary_operator_t.times => "*"
    | binary_operator_t.div => "/"
    | binary_operator_t.mod => "%"
    | binary_operator_t.lt => "<"
    | binary_operator_t.le => "<="
    | binary_operator_t.eq => "=="
    | binary_operator_t.neq => "!="
    | binary_operator_t.ge => ">="
    | binary_operator_t.gt => ">"
    | binary_operator_t.land => "&&"
  "(" ++ typed_expression_to_string l ++ ops ++ typed_expression_to_string r ++ ")"

/-- Pretty-printing of typed statements, identical to the untyped form. -/
def typed_statement_to_string : typed_statement_t → String
| typed_statement_t.nop_statement => "nop"
| typed_statement_t.assign_statement l r =>
  typed_expression_to_string l ++ "=" ++ typed_expression_to_string r
| typed_statement_t.sequence_statement a b =>
  typed_statement_to_string a ++ "; " ++ typed_statement_to_string b

/-- Platform signed integer lower bound used for range saturation. -/
def int_min_value : Int := -2147483648

/-- Platform signed integer upper bound used for range saturation. -/
def int_max_value : Int := 2147483647

/-- Saturate a value at the platform signed integer bounds (sec 4.D rule 6). -/
def saturate (v : Int) : Int := max int_min_value (min int_max_value v)

/-- Modelled from the spec (sec 4.D rule 6): interval arithmetic for the result
range of an arithmetic operator, saturated at the platform bounds. Division and
modulo get a conservative range built from corner candidates over nonzero
divisors, the full saturated range when the divisor range is just zero. -/
def interval_arith (op : binary_operator_t) (l1 h1 l2 h2 : Int) : Int × Int :=
  match op with
  | binary_operator_t.plus => (saturate (l1 + l2), saturate (h1 + h2))
  | binary_operator_t.minus => (saturate (l1 - h2), saturate (h1 - l2))
  | binary_operator_t.times =>
    let c : List Int := [l1 * l2, l1 * h2, h1 * l2, h1 * h2]
    (saturate (c.foldl min (l1 * l2)), saturate (c.foldl max (l1 * l2)))
  | binary_operator_t.div =>
    let ds : List Int := List.filter (fun d => d ≠ 0) [l2, h2, -1, 1]
    match ds with
    | [] => (int_min_value, int_max_value)
    | d :: _ =>
      let c : List Int := (ds.map (fun d => [l1 / d, h1 / d])).flatten
      (saturate (c.foldl min (l1 / d)), saturate (c.foldl max (l1 / d)))
  | binary_operator_t.mod =>
    let m : Int := max (max (-l2) l2) (max (-h2) h2)
    (saturate (- (m - 1)), saturate (m - 1))
  | _ => (int_min_value, int_max_value)

/-- Whether the operator is an arithmetic operator (sec 4.D rule 6). -/
def is_arith_op : binary_operator_t → Bool
| binary_operator_t.plus => true
| binary_operator_t.minus => true
| binary_operator_t.times => true
| binary_operator_t.div => true
| binary_operator_t.mod => true
| _ => false

/-- Whether the operator is a comparison operator (sec 4.D rule 7). -/
def is_cmp_op : binary_operator_t → Bool
| binary_operator_t.lt => true
| binary_operator_t.le => true
| binary_operator_t.eq => true
| binary_operator_t.neq => true
| binary_operator_t.ge => true
| binary_operator_t.gt => true
| _ => false

/-- Whether the operator is admissible in a clock constraint
(sec 4.D rule 7: every comparison except disequality). -/
def is_clock_cmp_op : binary_operator_t → Bool
| binary_operator_t.lt => true
| binary_operator_t.le => true
| binary_operator_t.eq => true
| binary_operator_t.ge => true
| binary_operator_t.gt => true
| _ => false

/-- Modelled from the spec (sec 4.D, typechecking.hh is external): the
syntax-directed expression type checker. Returns the typed AST together with
the error and warning messages it emits; a node with a bad child is emitted
as bad without a further message (errors are reported once, at the failing
subtree). -/
def typecheck_expression (intvars : List intvar_decl) (clocks : List clock_decl) :
    expression_t → typed_expression_t × List String × List String
| expression_t.int_expr v =>
  (typed_expression_t.int_expr (expression_type_t.int_t v v) v, [], [])
| expression_t.var_expr x =>
  match lookup_intvar intvars x with
  | some d =>
    if d.dim = 1 then
      (typed_expression_t.var_expr (expression_type_t.int_t d.low d.high) x d.index, [], [])
    else
      (typed_expression_t.var_expr expression_type_t.bad_t x d.index,
       ["variable is an array"], [])
  | none =>
    match lookup_clock clocks x with
    | some d =>
      if d.dim = 1 then
        (typed_expression_t.var_expr expression_type_t.clock_t x d.index, [], [])
      else
        (typed_expression_t.var_expr expression_type_t.bad_t x d.index,
         ["variable is an array"], [])
    | none =>
      (typed_expression_t.var_expr expression_type_t.bad_t x 0,
       ["undeclared identifier"], [])
| expression_t.array_expr x i =>
  let p := typecheck_expression intvars clocks i
  let ti := p.1
  let bad : Nat → Nat → List String → typed_expression_t × List String × List String :=
    fun base dim extra =>
      (typed_expression_t.array_expr expression_type_t.bad_t x base dim ti,
       p.2.1 ++ extra, p.2.2)
  match lookup_intvar intvars x with
  | some d =>
    if d.dim = 1 then bad d.index d.dim ["variable is not an array"]
    else
      match ti.etype with
      | expression_type_t.int_t lo hi =>
        if 0 ≤ lo ∧ hi < (d.dim : Int) then
          (typed_expression_t.array_expr (expression_type_t.int_t d.low d.high) x d.index d.dim ti,
           p.2.1, p.2.2)
        else bad d.index d.dim ["array index out of bounds"]
      | expression_type_t.bad_t => bad d.index d.dim []
      | _ => bad d.index d.dim ["array index is not an integer"]
  | none =>
    match lookup_clock clocks x with
    | some d =>
      if d.dim = 1 then bad d.index d.dim ["variable is not an array"]
      else
        match ti.etype with
        | expression_type_t.int_t lo hi =>
          if 0 ≤ lo ∧ hi < (d.dim : Int) then
            (typed_expression_t.array_expr expression_type_t.clock_t x d.index d.dim ti,
             p.2.1, p.2.2)
          else bad d.index d.dim ["array index out of bounds"]
        | expression_type_t.bad_t => bad d.index d.dim []
        | _ => bad d.index d.dim ["array index is not an integer"]
    | none => bad 0 0 ["undeclared identifier"]
| expression_t.unary_expr op e =>
  let p := typecheck_expression intvars clocks e
  let te := p.1
  match op with
  | unary_operator_t.neg =>
    match te.etype with
    | expression_type_t.int_t lo hi =>
      (typed_expression_t.unary_expr (expression_type_t.int_t (saturate (-hi)) (saturate (-lo)))
         unary_operator_t.neg te, p.2.1, p.2.2)
    | expression_type_t.bad_t =>
      (typed_expression_t.unary_expr expression_type_t.bad_t unary_operator_t.neg te, p.2.1, p.2.2)
    | _ =>
      (typed_expression_t.unary_expr expression_type_t.bad_t unary_operator_t.neg te,
       p.2.1 ++ ["operand of unary minus is not an integer"], p.2.2)
  | unary_operator_t.lnot =>
    match te.etype with
    | expression_type_t.bool_t =>
      (typed_expression_t.unary_expr expression_type_t.bool_t unary_operator_t.lnot te, p.2.1, p.2.2)
    | expression_type_t.bad_t =>
      (typed_expression_t.unary_expr expression_type_t.bad_t unary_operator_t.lnot te, p.2.1, p.2.2)
    | _ =>
      (typed_expression_t.unary_expr expression_type_t.bad_t unary_operator_t.lnot te,
       p.2.1 ++ ["operand of logical not is not boolean"], p.2.2)
| expression_t.binary_expr op l r =>
  let pl := typecheck_expression intvars clocks l
  let pr := typecheck_expression intvars clocks r
  let tl := pl.1
  let tr := pr.1
  let errs := pl.2.1 ++ pr.2.1
  let warns := pl.2.2 ++ pr.2.2
  let mk : expression_type_t → List String → List String → typed_expression_t × List String × List String :=
    fun t extrae extraw =>
      (typed_expression_t.binary_expr t op tl tr, errs ++ extrae, warns ++ extraw)
  if tl.etype = expression_type_t.bad_t ∨ tr.etype = expression_type_t.bad_t then
    mk expression_type_t.bad_t [] []
  else if is_arith_op op then
    match tl.etype, tr.etype with
    | expression_type_t.int_t l1 h1, expression_type_t.int_t l2 h2 =>
      let rng := interval_arith op l1 h1 l2 h2
      let divwarn : List String :=
        if (op = binary_operator_t.div ∨ op = binary_operator_t.mod) ∧ l2 ≤ 0 ∧ 0 ≤ h2 then
          ["possible division by zero"]
        else []
      mk (expression_type_t.int_t rng.1 rng.2) [] divwarn
    | expression_type_t.clock_t, expression_type_t.clock_t =>
      if op = binary_operator_t.minus then mk expression_type_t.clock_diff_t [] []
      else mk expression_type_t.bad_t ["ill-typed arithmetic operand"] []
    | _, _ => mk expression_type_t.bad_t ["ill-typed arithmetic operand"] []
  else if is_cmp_op op then
    match tl.etype, tr.etype with
    | expression_type_t.int_t _ _, expression_type_t.int_t _ _ =>
      mk expression_type_t.bool_t [] []
    | expression_type_t.clock_t, expression_type_t.int_t _ _ =>
      if is_clock_cmp_op op then mk expression_type_t.bool_t [] []
      else mk expression_type_t.bad_t ["ill-formed clock constraint"] []
    | expression_type_t.clock_diff_t, expression_type_t.int_t _ _ =>
      if is_clock_cmp_op op then mk expression_type_t.bool_t [] []
      else mk expression_type_t.bad_t ["ill-formed clock constraint"] []
    | expression_type_t.clock_t, _ => mk expression_type_t.bad_t ["ill-formed clock constraint"] []
    | expression_type_t.clock_diff_t, _ => mk expression_type_t.bad_t ["ill-formed clock constraint"] []
    | _, _ => mk expression_type_t.bad_t ["ill-typed comparison"] []
  else
    match tl.etype, tr.etype with
    | expression_type_t.bool_t, expression_type_t.bool_t =>
      mk expression_type_t.bool_t [] []
    | _, _ => mk expression_type_t.bad_t ["ill-typed conjunction operand"] []

/-- Modelled from the spec (sec 4.D statement typing, typechecking.hh is
external): the statement type checker. Returns the typed statement together
with the error and warning messages it emits. -/
def typecheck_statement (intvars : List intvar_decl) (clocks : List clock_decl) :
    statement_t → typed_statement_t × List String × List String
| statement_t.nop_statement => (typed_statement_t.nop_statement, [], [])
| statement_t.assign_statement l r =>
  let pl := typecheck_expression intvars clocks l.to_expression
  let pr := typecheck_expression intvars clocks r
  let tl := pl.1
  let tr := pr.1
  let errs := pl.2.1 ++ pr.2.1
  let warns := pl.2.2 ++ pr.2.2
  let node := typed_statement_t.assign_statement tl tr
  match tl.etype, tr.etype with
  | expression_type_t.bad_t, _ => (node, errs, warns)
  | _, expression_type_t.bad_t => (node, errs, warns)
  | expression_type_t.int_t llo lhi, expression_type_t.int_t rlo rhi =>
    if llo ≤ rlo ∧ rhi ≤ lhi then (node, errs, warns)
    else (node, errs, warns ++ ["possible value loss"])
  | expression_type_t.clock_t, expression_type_t.int_t rlo _ =>
    if 0 ≤ rlo then (node, errs, warns)
    else (node, errs ++ ["negative clock reset"], warns)
  | expression_type_t.clock_t, _ => (node, errs ++ ["ill-typed clock reset"], warns)
  | _, _ => (node, errs ++ ["ill-typed assignment"], warns)
| statement_t.sequence_statement a b =>
  let pa := typecheck_statement intvars clocks a
  let pb := typecheck_statement intvars clocks b
  (typed_statement_t.sequence_statement pa.1 pb.1, pa.2.1 ++ pb.2.1, pa.2.2 ++ pb.2.2)

/-- Modelled from the spec (sec 4.E): comparison relations allowed in clock
constraints (every comparison except disequality). -/
inductive rel_t : Type
| lt : rel_t
| le : rel_t
| eq : rel_t
| ge : rel_t
| gt : rel_t
deriving DecidableEq

/-- The clock-constraint relation denoted by a comparison operator, if any. -/
def rel_of_op : binary_operator_t → Option rel_t
| binary_operator_t.lt => some rel_t.lt
| binary_operator_t.le => some rel_t.le
| binary_operator_t.eq => some rel_t.eq
| binary_operator_t.ge => some rel_t.ge
| binary_operator_t.gt => some rel_t.gt
| _ => none

/-- Modelled from the spec (sec 4.E, vm.hh is external): the bytecode
instruction set of the stack machine. VLOADX and VSTOREX are the base-relative
array load and store of sec 4.F; in CLKCONSTR the second clock is optional,
none standing for the reserved zero clock of unary constraints. -/
inductive bytecode_t : Type
| PUSH : Int → bytecode_t
| VLOAD : Nat → bytecode_t
| VSTORE : Nat → bytecode_t
| VLOADX : Nat → bytecode_t
| VSTOREX : Nat → bytecode_t
| CLKRESET : Nat → bytecode_t
| CLKCONSTR : Nat → Option Nat → rel_t → Int → bytecode_t
| ADD : bytecode_t
| SUB : bytecode_t
| MUL : bytecode_t
| DIV : bytecode_t
| MOD : bytecode_t
| NEG : bytecode_t
| NOT : bytecode_t
| LT : bytecode_t
| LE : bytecode_t
| EQ : bytecode_t
| NE : bytecode_t
| GE : bytecode_t
| GT : bytecode_t
| AND : bytecode_t
| JZ : Int → bytecode_t
| INDEX : Int → Int → bytecode_t
| RET : bytecode_t
deriving DecidableEq

/-- The instruction of an arithmetic operator, if any. -/
def arith_insn : binary_operator_t → Option bytecode_t
| binary_operator_t.plus => some bytecode_t.ADD
| binary_operator_t.minus => some bytecode_t.SUB
| binary_operator_t.times => some bytecode_t.MUL
| binary_operator_t.div => some bytecode_t.DIV
| binary_operator_t.mod => some bytecode_t.MOD
| _ => none

/-- The instruction of an integer comparison operator, if any. -/
def cmp_insn : binary_operator_t → Option bytecode_t
| binary_operator_t.lt => some bytecode_t.LT
| binary_operator_t.le => some bytecode_t.LE
| binary_operator_t.eq => some bytecode_t.EQ
| binary_operator_t.neq => some bytecode_t.NE
| binary_operator_t.ge => some bytecode_t.GE
| binary_operator_t.gt => some bytecode_t.GT
| _ => none

/-- Modelled from the spec (sec 4.F, compilers.hh is external): recursive body
of the expression bytecode compiler. Deterministic; a bad type tag or a typed
AST shape outside the type algebra (a bare clock outside the canonical
constraint forms, a non-constant clock-constraint bound) is a fatal compiler
error (sec 7, kind 4). -/
def compile_expression_rec : typed_expression_t → Except String (List bytecode_t)
| typed_expression_t.int_expr (expression_type_t.int_t _ _) v =>
  Except.ok [bytecode_t.PUSH v]
| typed_expression_t.var_expr (expression_type_t.int_t _ _) _ i =>
  Except.ok [bytecode_t.VLOAD i]
| typed_expression_t.array_expr (expression_type_t.int_t _ _) _ base dim ix => do
  let ci ← compile_expression_rec ix
  Except.ok (ci ++ [bytecode_t.INDEX 0 ((dim : Int) - 1), bytecode_t.VLOADX base])
| typed_expression_t.unary_expr (expression_type_t.int_t _ _) unary_operator_t.neg e => do
  let c ← compile_expression_rec e
  Except.ok (c ++ [bytecode_t.NEG])
| typed_expression_t.unary_expr expression_type_t.bool_t unary_operator_t.lnot e => do
  let c ← compile_expression_rec e
  Except.ok (c ++ [bytecode_t.NOT])
| typed_expression_t.binary_expr (expression_type_t.int_t _ _) op l r =>
  match arith_insn op with
  | some insn => do
    let cl ← compile_expression_rec l
    let cr ← compile_expression_rec r
    Except.ok (cl ++ cr ++ [insn])
  | none => Except.error "unexpected typed AST shape"
| typed_expression_t.binary_expr expression_type_t.bool_t binary_operator_t.land l r => do
  let cl ← compile_expression_rec l
  let cr ← compile_expression_rec r
  Except.ok (cl ++ [bytecode_t.JZ (Int.ofNat cr.length)] ++ cr)
| typed_expression_t.binary_expr expression_type_t.bool_t op l r =>
  match l, r with
  | typed_expression_t.var_expr expression_type_t.clock_t _ i,
    typed_expression_t.int_expr _ k =>
    match rel_of_op op with
    | some rel => Except.ok [bytecode_t.CLKCONSTR i none rel k]
    | none => Except.error "unexpected typed AST shape"
  | typed_expression_t.binary_expr expression_type_t.clock_diff_t binary_operator_t.minus
      (typed_expression_t.var_expr expression_type_t.clock_t _ i)
      (typed_expression_t.var_expr expression_type_t.clock_t _ j),
    typed_expression_t.int_expr _ k =>
    match rel_of_op op with
    | some rel => Except.ok [bytecode_t.CLKCONSTR i (some j) rel k]
    | none => Except.error "unexpected typed AST shape"
  | _, _ =>
    match l.etype, r.etype, cmp_insn op with
    | expression_type_t.int_t _ _, expression_type_t.int_t _ _, some insn => do
      let cl ← compile_expression_rec l
      let cr ← compile_expression_rec r
      Except.ok (cl ++ cr ++ [insn])
    | _, _, _ => Except.error "unexpected typed AST shape"
| _ => Except.error "unexpected typed AST shape"

/-- Modelled from the spec (sec 4.F): recursive body of the statement bytecode
compiler. An ill-typed assignment is a fatal compiler error. -/
def compile_statement_rec : typed_statement_t → Except String (List bytecode_t)
| typed_statement_t.nop_statement => Except.ok []
| typed_statement_t.assign_statement l r =>
  if assign_ok l.etype r.etype then
    match l with
    | typed_expression_t.var_expr (expression_type_t.int_t _ _) _ i => do
      let cr ← compile_expression_rec r
      Except.ok (cr ++ [bytecode_t.VSTORE i])
    | typed_expression_t.array_expr (expression_type_t.int_t _ _) _ base dim ix => do
      let cr ← compile_expression_rec r
      let ci ← compile_expression_rec ix
      Except.ok (cr ++ ci ++ [bytecode_t.INDEX 0 ((dim : Int) - 1), bytecode_t.VSTOREX base])
    | typed_expression_t.var_expr expression_type_t.clock_t _ i => do
      let cr ← compile_expression_rec r
      Except.ok (cr ++ [bytecode_t.CLKRESET i])
    | _ => Except.error "unexpected typed AST shape"
  else Except.error "unexpected typed AST shape"
| typed_statement_t.sequence_statement a b => do
  let ca ← compile_statement_rec a
  let cb ← compile_statement_rec b
  Except.ok (ca ++ cb)

/-- Modelled from the spec (sec 4.F, the compile overload on typed expressions):
compile an expression fragment, a RET marker terminating the stream. -/
def compile_expression (e : typed_expression_t) : Except String (List bytecode_t) := do
  let c ← compile_expression_rec e
  Except.ok (c ++ [bytecode_t.RET])

/-- Modelled from the spec (sec 4.F, the compile overload on typed statements):
compile a statement fragment, a RET marker terminating the stream. -/
def compile_statement (s : typed_statement_t) : Except String (List bytecode_t) := do
  let c ← compile_statement_rec s
  Except.ok (c ++ [bytecode_t.RET])

/-- A location of the system graph: identifier and invariant attribute. -/
structure loc_t : Type where
  id : Nat
  invariant : expression_t
deriving DecidableEq

/-- An edge of the system graph: identifier, event label, guard and statement
attributes. -/
structure edge_t : Type where
  id : Nat
  event_id : Nat
  guard : expression_t
  statement : statement_t
deriving DecidableEq

/-- Modelled from the spec (sec 1, the system graph is an external
collaborator): the read-only system graph with its locations, edges, the set
of weakly synchronized events, and the variable declarations the accessor
exposes to the pipeline. -/
structure system_t : Type where
  locations : List loc_t
  edges : List edge_t
  weakly_synchronized : List Nat
  intvars : List intvar_decl
  clocks : List clock_decl
deriving DecidableEq

/-- Number of locations of the system. -/
def system_t.locations_count (sys : system_t) : Nat := sys.locations.length

/-- Number of edges of the system. -/
def system_t.edges_count (sys : system_t) : Nat := sys.edges.length

/-- The system variables accessor for the VM (vm_variables_t of
tchecker::fsm::details); it is stateless, every instance exposes the
variables of the given system. -/
structure vm_variables_t : Type where
deriving DecidableEq

/-- Accessor to the integer variables of a system. -/
def vm_variables_t.intvars (_ : vm_variables_t) (sys : system_t) : List intvar_decl :=
  sys.intvars

/-- Accessor to the clocks of a system. -/
def vm_variables_t.clocks (_ : vm_variables_t) (sys : system_t) : List clock_decl :=
  sys.clocks

/-- Modelled from the spec (sec 4.H, static_analysis.hh is external): the
syntactic constant-true expression. -/
def const_true : expression_t := expression_t.int_expr 1

/-- Modelled from the spec (sec 4.H, static_analysis.hh is external): whether
some edge is labelled by a weakly synchronized event and carries a guard that
is not syntactically the constant-true expression. -/
def has_guarded_weakly_synchronized_event (sys : system_t) : Bool :=
  sys.edges.any (fun e =>
    sys.weakly_synchronized.contains e.event_id && ! (e.guard == const_true))

/-- Report typecheck diagnostics to the logger under a context message, the
way the typecheck callback of model.hh does (errors first, then warnings). -/
def log_report (log : log_t) (context : String) (errs warns : List String) : log_t :=
  let log := errs.foldl (fun lg m => lg.error context m) log
  warns.foldl (fun lg m => lg.warning context m) log

/-- The shared shape of compile_invariants, compile_guards and
compile_statements of model.hh: resize both vectors to the element count with
null entries, then for each element store the type-checked attribute at its
identifier and try to compile it to bytecode, any compiler exception being
caught and reported to the logger with the context message of the attribute. -/
def attribute_pass_step {A T : Type} (id_of : A → Nat)
    (tc : A → T × List String × List String) (context : A → String)
    (comp : T → Except String (List bytecode_t))
    (acc : (List (Option T) × List (Option (List bytecode_t))) × log_t) (a : A) :
    (List (Option T) × List (Option (List bytecode_t))) × log_t :=
  let typed := (tc a).1
  let lg := log_report acc.2 (context a) (tc a).2.1 (tc a).2.2
  let ts := acc.1.1.set (id_of a) (some typed)
  match comp typed with
  | Except.ok bc => ((ts, acc.1.2.set (id_of a) (some bc)), lg)
  | Except.error msg => ((ts, acc.1.2), lg.error (context a) msg)

/-- The whole loop of one compile pass of model.hh: both vectors start with
count null entries, then the body runs once per element, in order. -/
def attribute_pass {A T : Type} (items : List A) (count : Nat) (id_of : A → Nat)
    (tc : A → T × List String × List String) (context : A → String)
    (comp : T → Except String (List bytecode_t)) (log : log_t) :
    List (Option T) × List (Option (List bytecode_t)) × log_t :=
  let st := items.foldl (attribute_pass_step id_of tc context comp)
    ((List.replicate count none, List.replicate count none), log)
  (st.1.1, st.1.2, st.2)

/-- compile_invariants of model.hh: type-check and compile the invariant of
every location, context message Attribute invariant. -/
def model_compile_invariants (sys : system_t) (vm : vm_variables_t) (log : log_t) :
    List (Option typed_expression_t) × List (Option (List bytecode_t)) × log_t :=
  attribute_pass sys.locations sys.locations_count loc_t.id
    (fun loc => typecheck_expression (vm.intvars sys) (vm.clocks sys) loc.invariant)
    (fun loc => "Attribute invariant: " ++ expression_to_string loc.invariant)
    compile_expression log

/-- compile_guards of model.hh: type-check and compile the guard of every
edge, context message Attribute provided. -/
def model_compile_guards (sys : system_t) (vm : vm_variables_t) (log : log_t) :
    List (Option typed_expression_t) × List (Option (List bytecode_t)) × log_t :=
  attribute_pass sys.edges sys.edges_count edge_t.id
    (fun e => typecheck_expression (vm.intvars sys) (vm.clocks sys) e.guard)
    (fun e => "Attribute provided: " ++ expression_to_string e.guard)
    compile_expression log

/-- compile_statements of model.hh: type-check and compile the statement of
every edge, context message Attribute do. -/
def model_compile_statements (sys : system_t) (vm : vm_variables_t) (log : log_t) :
    List (Option typed_statement_t) × List (Option (List bytecode_t)) × log_t :=
  attribute_pass sys.edges sys.edges_count edge_t.id
    (fun e => typecheck_statement (vm.intvars sys) (vm.clocks sys) e.statement)
    (fun e => "Attribute do: " ++ statement_to_string e.statement)
    compile_statement log

/-- The state of a tchecker::fsm::details::model_t: the underlying system, the
VM variables accessor, and the six per-element vectors of typed ASTs and
bytecode buffers (null entries modelled as none). -/
structure model_state : Type where
  system : system_t
  vm_variables : vm_variables_t
  typed_invariants : List (Option typed_expression_t)
  typed_guards : List (Option typed_expression_t)
  typed_statements : List (Option typed_statement_t)
  invariants_bytecode : List (Option (List bytecode_t))
  guards_bytecode : List (Option (List bytecode_t))
  statements_bytecode : List (Option (List bytecode_t))
deriving DecidableEq

/-- compile of model.hh: run the three passes in order, threading the logger. -/
def model_compile (sys : system_t) (vm : vm_variables_t) (log : log_t) :
    model_state × log_t :=
  let pi := model_compile_invariants sys vm log
  let pg := model_compile_guards sys vm pi.2.2
  let ps := model_compile_statements sys vm pg.2.2
  ({ system := sys, vm_variables := vm,
     typed_invariants := pi.1, typed_guards := pg.1, typed_statements := ps.1,
     invariants_bytecode := pi.2.1, guards_bytecode := pg.2.1,
     statements_bytecode := ps.2.1 }, ps.2.2)

/-- The protected constructor of model.hh (lines 197 to 207): throw when the
system has a guarded weakly synchronized event, otherwise compile, then throw
a system compilation failure when the logger reports any error. -/
def model_construct (sys : system_t) (log : log_t) :
    Except String (model_state × log_t) :=
  if has_guarded_weakly_synchronized_event sys then
    Except.error "Weakly synchronized event shall not be guarded"
  else
    let p := model_compile sys vm_variables_t.mk log
    if p.2.error_count > 0 then Except.error "System compilation failure"
    else Except.ok p

/-- The copy constructor of model.hh (lines 53 to 59): copy the underlying
system, recompile it with a fresh silent logger (the VM variables accessor is
default-constructed). The logger of the recompilation is returned so that the
assertion on its error count can be stated. -/
def model_copy_construct (m : model_state) : model_state × log_t :=
  model_compile m.system vm_variables_t.mk log_t.nil

/-- The copy assignment of model.hh (lines 79 to 93): free the current
buffers, copy the underlying system and the VM variables accessor, recompile
with a fresh silent logger. -/
def model_copy_assign (_target : model_state) (m : model_state) : model_state × log_t :=
  model_compile m.system m.vm_variables log_t.nil

/-- The defaulted move constructor and move assignment of model.hh (lines 61
to 64 and 95 to 99): member-wise move; moving each std::vector member leaves
the source vector empty while the destination takes over its buffer. Returns
the destination followed by the moved-from source. -/
def model_move (m : model_state) : model_state × model_state :=
  (m, { m with typed_invariants := [], typed_guards := [], typed_statements := [],
               invariants_bytecode := [], guards_bytecode := [],
               statements_bytecode := [] })

/-- typed_invariant accessor of model.hh: asserts that the location identifier
is below the size of the invariants bytecode vector (the out-of-range branch
is the precondition violation), then dereferences the stored pointer (none
models the null-pointer branch). -/
def model_state.typed_invariant (m : model_state) (loc_id : Nat) :
    Option typed_expression_t :=
  if loc_id < m.invariants_bytecode.length then m.typed_invariants.getD loc_id none
  else none

/-- typed_guard accessor of model.hh: asserts against the size of the guards
bytecode vector, then dereferences the stored pointer. -/
def model_state.typed_guard (m : model_state) (edge_id : Nat) :
    Option typed_expression_t :=
  if edge_id < m.guards_bytecode.length then m.typed_guards.getD edge_id none
  else none

/-- typed_statement accessor of model.hh: asserts against the size of the
statements bytecode vector, then dereferences the stored pointer. -/
def model_state.typed_statement (m : model_state) (edge_id : Nat) :
    Option typed_statement_t :=
  if edge_id < m.statements_bytecode.length then m.typed_statements.getD edge_id none
  else none

/-- invariant_bytecode accessor of model.hh: asserts the bound, then returns
the stored pointer. -/
def model_state.invariant_bytecode (m : model_state) (loc_id : Nat) :
    Option (List bytecode_t) :=
  if loc_id < m.invariants_bytecode.length then m.invariants_bytecode.getD loc_id none
  else none

/-- guard_bytecode accessor of model.hh: asserts the bound, then returns the
stored pointer. -/
def model_state.guard_bytecode (m : model_state) (edge_id : Nat) :
    Option (List bytecode_t) :=
  if edge_id < m.guards_bytecode.length then m.guards_bytecode.getD edge_id none
  else none

/-- statement_bytecode accessor of model.hh: asserts the bound, then returns
the stored pointer. -/
def model_state.statement_bytecode (m : model_state) (edge_id : Nat) :
    Option (List bytecode_t) :=
  if edge_id < m.statements_bytecode.length then m.statements_bytecode.getD edge_id none
  else none

/-- Well-formedness of the system graph: location identifiers enumerate the
location count, edge identifiers enumerate the edge count. -/
def system_t.wf (sys : system_t) : Prop :=
  (∀ i, i < sys.locations_count → ∃ loc, loc ∈ sys.locations ∧ loc.id = i) ∧
  (∀ j, j < sys.edges_count → ∃ e, e ∈ sys.edges ∧ e.id = j)

/-- The data part of one iteration of the attribute pass loop. -/
def pass_data_step {A T : Type} (id_of : A → Nat) (tc : A → T × List String × List String)
    (comp : T → Except String (List bytecode_t))
    (d : List (Option T) × List (Option (List bytecode_t))) (a : A) :
    List (Option T) × List (Option (List bytecode_t)) :=
  let ts := d.1.set (id_of a) (some (tc a).1)
  match comp (tc a).1 with
  | Except.ok bc => (ts, d.2.set (id_of a) (some bc))
  | Except.error _ => (ts, d.2)

/-- The logger entries one iteration of the attribute pass loop appends. -/
def pass_delta {A T : Type} (tc : A → T × List String × List String)
    (context : A → String) (comp : T → Except String (List bytecode_t)) (a : A) : log_t :=
  ⟨((tc a).2.1.map (fun m => (context a, m))) ++
     (match comp (tc a).1 with
      | Except.ok _ => []
      | Except.error msg => [(context a, msg)]),
   (tc a).2.2.map (fun m => (context a, m))⟩

/-- The logger entries a whole attribute pass appends. -/
def pass_deltas {A : Type} (delta : A → log_t) : List A → log_t
| [] => log_t.nil
| a :: l => (delta a).append (pass_deltas delta l)

/-- The logger entries the invariants pass appends, a function of the system
and accessor only. -/
def invariants_delta (sys : system_t) (vm : vm_variables_t) : log_t :=
  pass_deltas (pass_delta
    (fun loc => typecheck_expression (vm.intvars sys) (vm.clocks sys) loc.invariant)
    (fun loc => "Attribute invariant: " ++ expression_to_string loc.invariant)
    compile_expression) sys.locations

/-- The logger entries the guards pass appends. -/
def guards_delta (sys : system_t) (vm : vm_variables_t) : log_t :=
  pass_deltas (pass_delta
    (fun e => typecheck_expression (vm.intvars sys) (vm.clocks sys) e.guard)
    (fun e => "Attribute provided: " ++ expression_to_string e.guard)
    compile_expression) sys.edges

/-- The logger entries the statements pass appends. -/
def statements_delta (sys : system_t) (vm : vm_variables_t) : log_t :=
  pass_deltas (pass_delta
    (fun e => typecheck_statement (vm.intvars sys) (vm.clocks sys) e.statement)
    (fun e => "Attribute do: " ++ statement_to_string e.statement)
    compile_statement) sys.edges

/-- The logger entries a whole model compilation appends. -/
def model_log_delta (sys : system_t) (vm : vm_variables_t) : log_t :=
  (invariants_delta sys vm).append
    ((guards_delta sys vm).append (statements_delta sys vm))

/-- Claim formalization following the specification words (sec 4.G step 2):
one iteration of the per-attribute loop that runs the bytecode compiler only
if the typed AST is not bad, to be compared with the loop of the source. -/
def attribute_pass_guarded_step {A T : Type} (id_of : A → Nat)
    (tc : A → T × List String × List String) (context : A → String)
    (comp : T → Except String (List bytecode_t)) (bad : T → Bool)
    (acc : (List (Option T) × List (Option (List bytecode_t))) × log_t) (a : A) :
    (List (Option T) × List (Option (List bytecode_t))) × log_t :=
  let typed := (tc a).1
  let lg := log_report acc.2 (context a) (tc a).2.1 (tc a).2.2
  let ts := acc.1.1.set (id_of a) (some typed)
  if bad typed then ((ts, acc.1.2), lg)
  else
    match comp typed with
    | Except.ok bc => ((ts, acc.1.2.set (id_of a) (some bc)), lg)
    | Except.error msg => ((ts, acc.1.2), lg.error (context a) msg)

/-- Claim formalization following the specification words: the guarded
per-attribute loop. -/
def attribute_pass_guarded {A T : Type} (items : List A) (count : Nat)
    (id_of : A → Nat) (tc : A → T × List String × List String)
    (context : A → String) (comp : T → Except String (List bytecode_t))
    (bad : T → Bool) (log : log_t) :
    List (Option T) × List (Option (List bytecode_t)) × log_t :=
  let st := items.foldl (attribute_pass_guarded_step id_of tc context comp bad)
    ((List.replicate count none, List.replicate count none), log)
  (st.1.1, st.1.2, st.2)

/-- Claim formalization following the specification words: the invariants
pass with the compiler guarded by badness of the typed AST. -/
def model_compile_invariants_guarded (sys : system_t) (vm : vm_variables_t)
    (log : log_t) :
    List (Option typed_expression_t) × List (Option (List bytecode_t)) × log_t :=
  attribute_pass_guarded sys.locations sys.locations_count loc_t.id
    (fun loc => typecheck_expression (vm.intvars sys) (vm.clocks sys) loc.invariant)
    (fun loc => "Attribute invariant: " ++ expression_to_string loc.invariant)
    compile_expression
    (fun t => t.etype == expression_type_t.bad_t) log

/-- Replace every location invariant and every edge statement of a system,
leaving identifiers, event labels and guards unchanged. -/
def replace_attributes (sys : system_t) (f : loc_t → expression_t)
    (g : edge_t → statement_t) : system_t :=
  { sys with
    locations := sys.locations.map (fun loc => ⟨loc.id, f loc⟩),
    edges := sys.edges.map (fun e => ⟨e.id, e.event_id, e.guard, g e⟩) }

/-- A small well-typed system: the environment declares one scalar integer
variable x in 0..10, one location with the constant-true invariant, one edge
guarded by x less than 5 with a nop statement. -/
def sample_system : system_t :=
  { locations := [⟨0, const_true⟩],
    edges := [⟨0, 0, expression_t.binary_expr binary_operator_t.lt
      (expression_t.var_expr "x") (expression_t.int_expr 5),
      statement_t.nop_statement⟩],
    weakly_synchronized := [],
    intvars := [⟨"x", 0, 1, 0, 10⟩],
    clocks := [] }

/-- The sample system with its only event flagged weakly synchronized, so
that its guarded edge violates the static-analysis rule. -/
def weak_sync_system : system_t :=
  { sample_system with weakly_synchronized := [0] }

/-- A system whose single location invariant mentions an undeclared
identifier, so its typed invariant is bad. -/
def bad_invariant_system : system_t :=
  { locations := [⟨0, expression_t.var_expr "z"⟩],
    edges := [], weakly_synchronized := [], intvars := [], clocks := [] }

/-- The model built over the sample system (by a silent-logger compilation,
the same data the protected constructor stores). -/
def sample_model : model_state :=
  (model_compile sample_system vm_variables_t.mk log_t.nil).1

/-- The logger state after building the sample model. -/
def sample_model_log : log_t :=
  (model_compile sample_system vm_variables_t.mk log_t.nil).2


instance system_wf_decidable (sys : system_t) : Decidable sys.wf := by
  unfold system_t.wf
  infer_instance


theorem log_append_nil (log : log_t) : log.append log_t.nil = log := by
  cases log with
  | mk e w => simp [log_t.append, log_t.nil]

theorem log_append_assoc (a b c : log_t) :
    (a.append b).append c = a.append (b.append c) := by
  cases a with
  | mk e w => cases b with
    | mk e2 w2 => cases c with
      | mk e3 w3 => simp [log_t.append]

theorem log_error_eq_append (log : log_t) (c m : String) :
    log.error c m = log.append ⟨[(c, m)], []⟩ := by
  cases log with
  | mk e w => simp [log_t.error, log_t.append]

theorem log_warning_eq_append (log : log_t) (c m : String) :
    log.warning c m = log.append ⟨[], [(c, m)]⟩ := by
  cases log with
  | mk e w => simp [log_t.warning, log_t.append]

theorem log_error_count_append (a b : log_t) :
    (a.append b).error_count = a.error_count + b.error_count := by
  simp [log_t.append, log_t.error_count]

theorem log_error_count_warning (log : log_t) (c m : String) :
    (log.warning c m).error_count = log.error_count := by
  simp [log_t.warning, log_t.error_count]

theorem foldl_error_eq (ctx : String) (errs : List String) : ∀ log : log_t,
    errs.foldl (fun lg m => lg.error ctx m) log =
      log.append ⟨errs.map (fun m => (ctx, m)), []⟩ := by
  induction errs with
  | nil =>
    intro log
    cases log with
    | mk e w => simp [log_t.append]
  | cons m rest ih =>
    intro log
    simp only [List.foldl_cons, List.map_cons]
    rw [ih, log_error_eq_append, log_append_assoc]
    simp [log_t.append]

theorem foldl_warning_eq (ctx : String) (warns : List String) : ∀ log : log_t,
    warns.foldl (fun lg m => lg.warning ctx m) log =
      log.append ⟨[], warns.map (fun m => (ctx, m))⟩ := by
  induction warns with
  | nil =>
    intro log
    cases log with
    | mk e w => simp [log_t.append]
  | cons m rest ih =>
    intro log
    simp only [List.foldl_cons, List.map_cons]
    rw [ih, log_warning_eq_append, log_append_assoc]
    simp [log_t.append]

theorem log_report_eq_append (log : log_t) (ctx : String) (errs warns : List String) :
    log_report log ctx errs warns =
      log.append ⟨errs.map (fun m => (ctx, m)), warns.map (fun m => (ctx, m))⟩ := by
  simp only [log_report, foldl_error_eq, foldl_warning_eq, log_append_assoc]
  simp [log_t.append]

theorem attribute_pass_split {A T : Type} (items : List A) (count : Nat)
    (id_of : A → Nat) (tc : A → T × List String × List String) (context : A → String)
    (comp : T → Except String (List bytecode_t)) (log : log_t) :
    attribute_pass items count id_of tc context comp log =
      ((items.foldl (pass_data_step id_of tc comp)
          (List.replicate count none, List.replicate count none)).1,
       (items.foldl (pass_data_step id_of tc comp)
          (List.replicate count none, List.replicate count none)).2,
       log.append (pass_deltas (pass_delta tc context comp) items)) := by
  have hstep : ∀ (d : List (Option T) × List (Option (List bytecode_t)))
      (lg : log_t) (a : A),
      attribute_pass_step id_of tc context comp (d, lg) a
        = (pass_data_step id_of tc comp d a,
           lg.append (pass_delta tc context comp a)) := by
    intro d lg a
    cases hc : comp (tc a).1 with
    | ok bc =>
      simp only [attribute_pass_step, hc, pass_data_step, pass_delta,
        log_report_eq_append]
      simp [hc, log_t.append]
    | error msg =>
      simp only [attribute_pass_step, hc, pass_data_step, pass_delta,
        log_report_eq_append, log_error_eq_append, log_append_assoc]
      simp [hc, log_t.append]
  have main : ∀ (l : List A) (d : List (Option T) × List (Option (List bytecode_t)))
      (lg : log_t),
      l.foldl (attribute_pass_step id_of tc context comp) (d, lg)
        = (l.foldl (pass_data_step id_of tc comp) d,
           lg.append (pass_deltas (pass_delta tc context comp) l)) := by
    intro l
    induction l with
    | nil => intro d lg; simp [pass_deltas, log_append_nil]
    | cons a rest ih =>
      intro d lg
      rw [List.foldl_cons, hstep, ih]
      simp [pass_deltas, log_append_assoc]
  simp only [attribute_pass, main]

theorem getD_set_self {α : Type} (l : List (Option α)) (i : Nat) (a : Option α)
    (h : i < l.length) : (l.set i a).getD i none = a := by
  simp [List.getD, List.getElem?_set_eq_of_lt _ h]

theorem getD_set_ne {α : Type} (l : List (Option α)) (i j : Nat) (a : Option α)
    (h : i ≠ j) : (l.set i a).getD j none = l.getD j none := by
  simp [List.getD, List.getElem?_set_ne h]

theorem getD_replicate_none {α : Type} (n i : Nat) :
    (List.replicate n (none : Option α)).getD i none = none := by
  simp [List.getD]

theorem pass_step_fst_length {A T : Type} (id_of : A → Nat)
    (tc : A → T × List String × List String)
    (comp : T → Except String (List bytecode_t))
    (d : List (Option T) × List (Option (List bytecode_t))) (a : A) :
    (pass_data_step id_of tc comp d a).1.length = d.1.length := by
  cases hc : comp (tc a).1 <;> simp [pass_data_step, hc]

theorem pass_step_snd_length {A T : Type} (id_of : A → Nat)
    (tc : A → T × List String × List String)
    (comp : T → Except String (List bytecode_t))
    (d : List (Option T) × List (Option (List bytecode_t))) (a : A) :
    (pass_data_step id_of tc comp d a).2.length = d.2.length := by
  cases hc : comp (tc a).1 <;> simp [pass_data_step, hc]

theorem pass_step_fst_self {A T : Type} (id_of : A → Nat)
    (tc : A → T × List String × List String)
    (comp : T → Except String (List bytecode_t))
    (d : List (Option T) × List (Option (List bytecode_t))) (a : A)
    (h : id_of a < d.1.length) :
    (pass_data_step id_of tc comp d a).1.getD (id_of a) none = some (tc a).1 := by
  cases hc : comp (tc a).1 <;>
    simp [pass_data_step, hc, List.getD, List.getElem?_set_eq_of_lt _ h]

theorem pass_step_fst_other {A T : Type} (id_of : A → Nat)
    (tc : A → T × List String × List String)
    (comp : T → Except String (List bytecode_t))
    (d : List (Option T) × List (Option (List bytecode_t))) (a : A) (i : Nat)
    (h : id_of a ≠ i ∨ d.1.length ≤ id_of a) :
    (pass_data_step id_of tc comp d a).1.getD i none = d.1.getD i none := by
  rcases h with h | h
  · cases hc : comp (tc a).1 <;>
      simp [pass_data_step, hc, List.getD, List.getElem?_set_ne h]
  · cases hc : comp (tc a).1 <;>
      simp [pass_data_step, hc, List.set_eq_of_length_le h]

theorem pass_step_snd_ok {A T : Type} (id_of : A → Nat)
    (tc : A → T × List String × List String)
    (comp : T → Except String (List bytecode_t))
    (d : List (Option T) × List (Option (List bytecode_t))) (a : A)
    (bc : List bytecode_t) (hc : comp (tc a).1 = Except.ok bc)
    (h : id_of a < d.2.length) :
    (pass_data_step id_of tc comp d a).2.getD (id_of a) none = some bc := by
  simp [pass_data_step, hc, List.getD, List.getElem?_set_eq_of_lt _ h]

theorem pass_step_snd_err {A T : Type} (id_of : A → Nat)
    (tc : A → T × List String × List String)
    (comp : T → Except String (List bytecode_t))
    (d : List (Option T) × List (Option (List bytecode_t))) (a : A)
    (msg : String) (hc : comp (tc a).1 = Except.error msg) :
    (pass_data_step id_of tc comp d a).2 = d.2 := by
  simp [pass_data_step, hc]

theorem pass_step_snd_other {A T : Type} (id_of : A → Nat)
    (tc : A → T × List String × List String)
    (comp : T → Except String (List bytecode_t))
    (d : List (Option T) × List (Option (List bytecode_t))) (a : A) (i : Nat)
    (h : id_of a ≠ i ∨ d.2.length ≤ id_of a) :
    (pass_data_step id_of tc comp d a).2.getD i none = d.2.getD i none := by
  rcases h with h | h
  · cases hc : comp (tc a).1 <;>
      simp [pass_data_step, hc, List.getD, List.getElem?_set_ne h]
  · cases hc : comp (tc a).1 <;>
      simp [pass_data_step, hc, List.set_eq_of_length_le h]

theorem pass_data_length {A T : Type} (id_of : A → Nat)
    (tc : A → T × List String × List String)
    (comp : T → Except String (List bytecode_t)) :
    ∀ (l : List A) (d : List (Option T) × List (Option (List bytecode_t))),
      (l.foldl (pass_data_step id_of tc comp) d).1.length = d.1.length ∧
      (l.foldl (pass_data_step id_of tc comp) d).2.length = d.2.length := by
  intro l
  induction l with
  | nil => intro d; exact ⟨rfl, rfl⟩
  | cons a rest ih =>
    intro d
    rw [List.foldl_cons]
    rcases ih (pass_data_step id_of tc comp d a) with ⟨h1, h2⟩
    exact ⟨h1.trans (pass_step_fst_length id_of tc comp d a),
           h2.trans (pass_step_snd_length id_of tc comp d a)⟩

theorem pass_typed_some {A T : Type} (id_of : A → Nat)
    (tc : A → T × List String × List String)
    (comp : T → Except String (List bytecode_t)) :
    ∀ (l : List A) (d : List (Option T) × List (Option (List bytecode_t))) (i : Nat),
      ((d.1.getD i none).isSome = true ∨
        ∃ a, a ∈ l ∧ id_of a = i ∧ i < d.1.length) →
      ((l.foldl (pass_data_step id_of tc comp) d).1.getD i none).isSome = true := by
  intro l
  induction l with
  | nil =>
    intro d i h
    rcases h with h | ⟨a, ha, _⟩
    · exact h
    · exact absurd ha (List.not_mem_nil a)
  | cons a rest ih =>
    intro d i h
    rw [List.foldl_cons]
    apply ih
    rcases h with h | ⟨a0, ha0, hid, hlt⟩
    · left
      by_cases hi : id_of a = i
      · by_cases hlt : id_of a < d.1.length
        · rw [← hi, pass_step_fst_self id_of tc comp d a hlt]
          rfl
        · rw [pass_step_fst_other id_of tc comp d a i (Or.inr (Nat.le_of_not_lt hlt))]
          exact h
      · rw [pass_step_fst_other id_of tc comp d a i (Or.inl hi)]
        exact h
    · rcases List.mem_cons.mp ha0 with rfl | hmem
      · left
        rw [← hid] at hlt
        rw [← hid, pass_step_fst_self id_of tc comp d a0 hlt]
        rfl
      · right
        refine ⟨a0, hmem, hid, ?_⟩
        rw [pass_step_fst_length id_of tc comp d a]
        exact hlt

theorem pass_bc_some {A T : Type} (id_of : A → Nat)
    (tc : A → T × List String × List String)
    (comp : T → Except String (List bytecode_t)) :
    ∀ (l : List A) (d : List (Option T) × List (Option (List bytecode_t))) (i : Nat),
      ((d.2.getD i none).isSome = true ∨
        ∃ a, a ∈ l ∧ id_of a = i ∧ i < d.2.length ∧ ∃ bc, comp (tc a).1 = Except.ok bc) →
      ((l.foldl (pass_data_step id_of tc comp) d).2.getD i none).isSome = true := by
  intro l
  induction l with
  | nil =>
    intro d i h
    rcases h with h | ⟨a, ha, _⟩
    · exact h
    · exact absurd ha (List.not_mem_nil a)
  | cons a rest ih =>
    intro d i h
    rw [List.foldl_cons]
    apply ih
    rcases h with h | ⟨a0, ha0, hid, hlt, bc, hok⟩
    · left
      by_cases hi : id_of a = i
      · cases hc : comp (tc a).1 with
        | ok bc2 =>
          by_cases hlt2 : id_of a < d.2.length
          · rw [← hi, pass_step_snd_ok id_of tc comp d a bc2 hc hlt2]
            rfl
          · rw [pass_step_snd_other id_of tc comp d a i (Or.inr (Nat.le_of_not_lt hlt2))]
            exact h
        | error msg =>
          rw [pass_step_snd_err id_of tc comp d a msg hc]
          exact h
      · rw [pass_step_snd_other id_of tc comp d a i (Or.inl hi)]
        exact h
    · rcases List.mem_cons.mp ha0 with rfl | hmem
      · left
        rw [← hid] at hlt
        rw [← hid, pass_step_snd_ok id_of tc comp d a0 bc hok hlt]
        rfl
      · right
        refine ⟨a0, hmem, hid, ?_, bc, hok⟩
        rw [pass_step_snd_length id_of tc comp d a]
        exact hlt

theorem pass_bc_stable {A T : Type} (id_of : A → Nat)
    (tc : A → T × List String × List String)
    (comp : T → Except String (List bytecode_t)) :
    ∀ (l : List A) (d : List (Option T) × List (Option (List bytecode_t))) (i : Nat),
      i ∉ l.map id_of →
      (l.foldl (pass_data_step id_of tc comp) d).2.getD i none = d.2.getD i none := by
  intro l
  induction l with
  | nil => intro d i _; rfl
  | cons a rest ih =>
    intro d i hni
    rw [List.map_cons] at hni
    have hne : id_of a ≠ i := by
      intro he
      exact hni (by rw [← he]; exact List.mem_cons_self _ _)
    have hrest : i ∉ rest.map id_of := fun hm => hni (List.mem_cons_of_mem _ hm)
    rw [List.foldl_cons, ih _ _ hrest]
    exact pass_step_snd_other id_of tc comp d a i (Or.inl hne)

theorem pass_bc_none {A T : Type} (id_of : A → Nat)
    (tc : A → T × List String × List String)
    (comp : T → Except String (List bytecode_t)) :
    ∀ (l : List A) (d : List (Option T) × List (Option (List bytecode_t))),
      (l.map id_of).Nodup →
      ∀ (a : A) (msg : String), a ∈ l → comp (tc a).1 = Except.error msg →
      d.2.getD (id_of a) none = none →
      (l.foldl (pass_data_step id_of tc comp) d).2.getD (id_of a) none = none := by
  intro l
  induction l with
  | nil => intro d _ a msg ha; exact absurd ha (List.not_mem_nil a)
  | cons a0 rest ih =>
    intro d hnd a msg ha herr hnone
    rw [List.map_cons, List.nodup_cons] at hnd
    rw [List.foldl_cons]
    rcases List.mem_cons.mp ha with rfl | hmem
    · rw [pass_bc_stable id_of tc comp rest _ _ hnd.1,
        pass_step_snd_err id_of tc comp d a msg herr]
      exact hnone
    · apply ih _ hnd.2 a msg hmem herr
      have hne : id_of a0 ≠ id_of a := by
        intro he
        exact hnd.1 (he ▸ List.mem_map_of_mem id_of hmem)
      rw [pass_step_snd_other id_of tc comp d a0 (id_of a) (Or.inl hne)]
      exact hnone

theorem pass_deltas_errors_nil {A : Type} (delta : A → log_t) :
    ∀ l : List A, (pass_deltas delta l).errors = [] →
      ∀ a, a ∈ l → (delta a).errors = [] := by
  intro l
  induction l with
  | nil => intro _ a ha; exact absurd ha (List.not_mem_nil a)
  | cons a0 rest ih =>
    intro h a ha
    have h2 : (delta a0).errors ++ (pass_deltas delta rest).errors = [] := h
    rcases List.append_eq_nil.mp h2 with ⟨h3, h4⟩
    rcases List.mem_cons.mp ha with rfl | hmem
    · exact h3
    · exact ih h4 a hmem

theorem pass_delta_ok {A T : Type} (tc : A → T × List String × List String)
    (context : A → String) (comp : T → Except String (List bytecode_t)) (a : A)
    (h : (pass_delta tc context comp a).errors = []) :
    (tc a).2.1 = [] ∧ ∃ bc, comp (tc a).1 = Except.ok bc := by
  cases hc : comp (tc a).1 with
  | ok bc =>
    simp [pass_delta, hc] at h
    exact ⟨h, bc, rfl⟩
  | error msg =>
    simp [pass_delta, hc] at h

theorem compile_expression_rec_bad (e : typed_expression_t)
    (h : e.etype = expression_type_t.bad_t) :
    compile_expression_rec e = Except.error "unexpected typed AST shape" := by
  cases e with
  | int_expr t v =>
    simp only [typed_expression_t.etype] at h
    subst h; rfl
  | var_expr t x i =>
    simp only [typed_expression_t.etype] at h
    subst h; rfl
  | array_expr t x base dim ix =>
    simp only [typed_expression_t.etype] at h
    subst h; rfl
  | unary_expr t op e =>
    simp only [typed_expression_t.etype] at h
    subst h; cases op <;> rfl
  | binary_expr t op l r =>
    simp only [typed_expression_t.etype] at h
    subst h; cases op <;> rfl

theorem compile_expression_bad (e : typed_expression_t)
    (h : e.etype = expression_type_t.bad_t) :
    compile_expression e = Except.error "unexpected typed AST shape" := by
  simp [compile_expression, compile_expression_rec_bad e h, Bind.bind, Except.bind]

theorem compile_statement_rec_bad (s : typed_statement_t) (h : s.is_bad = true) :
    ∃ msg, compile_statement_rec s = Except.error msg := by
  induction s with
  | nop_statement => simp [typed_statement_t.is_bad] at h
  | assign_statement l r =>
    have hok : assign_ok l.etype r.etype = false := by
      simp [typed_statement_t.is_bad] at h
      exact h
    exact ⟨"unexpected typed AST shape", by simp [compile_statement_rec, hok]⟩
  | sequence_statement a b iha ihb =>
    simp only [typed_statement_t.is_bad, Bool.or_eq_true] at h
    rcases h with h | h
    · rcases iha h with ⟨msg, hm⟩
      exact ⟨msg, by simp [compile_statement_rec, hm, Bind.bind, Except.bind]⟩
    · cases hca : compile_statement_rec a with
      | error msg => exact ⟨msg, by simp [compile_statement_rec, hca, Bind.bind, Except.bind]⟩
      | ok ca =>
        rcases ihb h with ⟨msg, hm⟩
        exact ⟨msg, by simp [compile_statement_rec, hca, hm, Bind.bind, Except.bind]⟩

theorem compile_statement_bad (s : typed_statement_t) (h : s.is_bad = true) :
    ∃ msg, compile_statement s = Except.error msg := by
  rcases compile_statement_rec_bad s h with ⟨msg, hm⟩
  exact ⟨msg, by simp [compile_statement, hm, Bind.bind, Except.bind]⟩

theorem log_nil_append (log : log_t) : log_t.nil.append log = log := by
  cases log with
  | mk e w => simp [log_t.append, log_t.nil]

theorem model_compile_eq (sys : system_t) (vm : vm_variables_t) (log : log_t) :
    model_compile sys vm log =
      ((model_compile sys vm log_t.nil).1, log.append (model_log_delta sys vm)) := by
  simp only [model_compile, model_compile_invariants, model_compile_guards,
    model_compile_statements, attribute_pass_split, model_log_delta,
    invariants_delta, guards_delta, statements_delta, log_append_assoc,
    log_nil_append]

theorem model_construct_ok_elim (sys : system_t) (log : log_t)
    (m : model_state) (lg2 : log_t)
    (hok : model_construct sys log = Except.ok (m, lg2)) :
    has_guarded_weakly_synchronized_event sys = false ∧
    m = (model_compile sys vm_variables_t.mk log).1 ∧
    lg2 = (model_compile sys vm_variables_t.mk log).2 ∧
    (model_compile sys vm_variables_t.mk log).2.error_count = 0 := by
  by_cases hw : has_guarded_weakly_synchronized_event sys = true
  · simp [model_construct, hw] at hok
  · have hwf : has_guarded_weakly_synchronized_event sys = false :=
      Bool.not_eq_true _ ▸ Bool.of_not_eq_true hw
    by_cases hc : (model_compile sys vm_variables_t.mk log).2.error_count > 0
    · simp [model_construct, hwf, hc] at hok
    · have hz : (model_compile sys vm_variables_t.mk log).2.error_count = 0 :=
        Nat.eq_zero_of_not_pos hc
      simp [model_construct, hwf, hc] at hok
      exact ⟨hwf, (congrArg Prod.fst hok).symm, (congrArg Prod.snd hok).symm, hz⟩

theorem model_delta_errors_of_zero (sys : system_t) (vm : vm_variables_t)
    (log : log_t) (h : (model_compile sys vm log).2.error_count = 0) :
    (invariants_delta sys vm).errors = [] ∧
    (guards_delta sys vm).errors = [] ∧
    (statements_delta sys vm).errors = [] := by
  rw [model_compile_eq] at h
  simp only [log_error_count_append, model_log_delta] at h
  rcases Nat.add_eq_zero.mp h with ⟨_, h2⟩
  rcases Nat.add_eq_zero.mp h2 with ⟨h3, h4⟩
  rcases Nat.add_eq_zero.mp h4 with ⟨h5, h6⟩
  exact ⟨List.length_eq_zero.mp h3, List.length_eq_zero.mp h5,
    List.length_eq_zero.mp h6⟩

theorem model_lists_length (sys : system_t) (vm : vm_variables_t) (log : log_t) :
    (model_compile sys vm log).1.typed_invariants.length = sys.locations_count ∧
    (model_compile sys vm log).1.invariants_bytecode.length = sys.locations_count ∧
    (model_compile sys vm log).1.typed_guards.length = sys.edges_count ∧
    (model_compile sys vm log).1.guards_bytecode.length = sys.edges_count ∧
    (model_compile sys vm log).1.typed_statements.length = sys.edges_count ∧
    (model_compile sys vm log).1.statements_bytecode.length = sys.edges_count := by
  simp only [model_compile, model_compile_invariants, model_compile_guards,
    model_compile_statements, attribute_pass_split]
  refine ⟨?_, ?_, ?_, ?_, ?_, ?_⟩ <;>
    simp [(pass_data_length _ _ _ _ _).1, (pass_data_length _ _ _ _ _).2]

theorem model_typed_slots (sys : system_t) (vm : vm_variables_t) (log : log_t) :
    (∀ loc, loc ∈ sys.locations → loc.id < sys.locations_count →
      (((model_compile sys vm log).1.typed_invariants.getD loc.id none).isSome = true)) ∧
    (∀ e, e ∈ sys.edges → e.id < sys.edges_count →
      (((model_compile sys vm log).1.typed_guards.getD e.id none).isSome = true) ∧
      (((model_compile sys vm log).1.typed_statements.getD e.id none).isSome = true)) := by
  simp only [model_compile, model_compile_invariants, model_compile_guards,
    model_compile_statements, attribute_pass_split]
  constructor
  · intro loc hmem hlt
    apply pass_typed_some
    right
    exact ⟨loc, hmem, rfl, by simpa using hlt⟩
  · intro e hmem hlt
    constructor <;>
      (apply pass_typed_some; right; exact ⟨e, hmem, rfl, by simpa using hlt⟩)

theorem model_bytecode_slots (sys : system_t) (vm : vm_variables_t) (log : log_t)
    (hz : (model_compile sys vm log).2.error_count = 0) :
    (∀ loc, loc ∈ sys.locations → loc.id < sys.locations_count →
      (((model_compile sys vm log).1.invariants_bytecode.getD loc.id none).isSome = true)) ∧
    (∀ e, e ∈ sys.edges → e.id < sys.edges_count →
      (((model_compile sys vm log).1.guards_bytecode.getD e.id none).isSome = true) ∧
      (((model_compile sys vm log).1.statements_bytecode.getD e.id none).isSome = true)) := by
  rcases model_delta_errors_of_zero sys vm log hz with ⟨hi, hg, hs⟩
  simp only [model_compile, model_compile_invariants, model_compile_guards,
    model_compile_statements, attribute_pass_split]
  constructor
  · intro loc hmem hlt
    rcases pass_delta_ok _ _ _ loc
        (pass_deltas_errors_nil _ sys.locations hi loc hmem) with ⟨_, bc, hok⟩
    apply pass_bc_some
    right
    exact ⟨loc, hmem, rfl, by simpa using hlt, bc, hok⟩
  · intro e hmem hlt
    constructor
    · rcases pass_delta_ok _ _ _ e
          (pass_deltas_errors_nil _ sys.edges hg e hmem) with ⟨_, bc, hok⟩
      apply pass_bc_some
      right
      exact ⟨e, hmem, rfl, by simpa using hlt, bc, hok⟩
    · rcases pass_delta_ok _ _ _ e
          (pass_deltas_errors_nil _ sys.edges hs e hmem) with ⟨_, bc, hok⟩
      apply pass_bc_some
      right
      exact ⟨e, hmem, rfl, by simpa using hlt, bc, hok⟩

theorem expression_clone_eq (e : expression_t) : e.clone = e := by
  induction e <;> simp [expression_t.clone, *]

theorem lvalue_clone_eq (l : lvalue_expression_t) : l.clone = l := by
  cases l <;> simp [lvalue_expression_t.clone, expression_clone_eq]

theorem statement_clone_eq (s : statement_t) : s.clone = s := by
  induction s <;>
    simp [statement_t.clone, lvalue_clone_eq, expression_clone_eq, *]

theorem expression_alloc_eq (e : expression_t) :
    ∀ c, e.alloc c = (List.range' c e.node_count, c + e.node_count) := by
  induction e with
  | int_expr v =>
    intro c
    simp [expression_t.alloc, expression_t.node_count, List.range', List.range'_succ]
  | var_expr x =>
    intro c
    simp [expression_t.alloc, expression_t.node_count, List.range', List.range'_succ]
  | array_expr x i ih =>
    intro c
    rw [expression_t.alloc]
    simp only [ih, expression_t.node_count]
    rw [Nat.add_comm 1 i.node_count, List.range'_succ]
    simp only [Prod.mk.injEq]
    exact ⟨trivial, by omega⟩
  | unary_expr op e ih =>
    intro c
    rw [expression_t.alloc]
    simp only [ih, expression_t.node_count]
    rw [Nat.add_comm 1 e.node_count, List.range'_succ]
    simp only [Prod.mk.injEq]
    exact ⟨trivial, by omega⟩
  | binary_expr op l r ihl ihr =>
    intro c
    rw [expression_t.alloc]
    simp only [ihl, ihr, expression_t.node_count]
    rw [Nat.add_comm 1 (l.node_count + r.node_count), List.range'_succ]
    simp only [Prod.mk.injEq]
    refine ⟨?_, by omega⟩
    rw [Nat.add_comm l.node_count r.node_count, ← List.range'_append_1]

theorem lvalue_alloc_eq (l : lvalue_expression_t) :
    ∀ c, l.alloc c = (List.range' c l.node_count, c + l.node_count) := by
  cases l with
  | var_expr x =>
    intro c
    simp [lvalue_expression_t.alloc, lvalue_expression_t.node_count,
      List.range', List.range'_succ]
  | array_expr x i =>
    intro c
    rw [lvalue_expression_t.alloc]
    simp only [expression_alloc_eq, lvalue_expression_t.node_count]
    rw [Nat.add_comm 1 i.node_count, List.range'_succ]
    simp only [Prod.mk.injEq]
    exact ⟨trivial, by omega⟩

theorem statement_alloc_eq (s : statement_t) :
    ∀ c, s.alloc c = (List.range' c s.node_count, c + s.node_count) := by
  induction s with
  | nop_statement =>
    intro c
    simp [statement_t.alloc, statement_t.node_count, List.range', List.range'_succ]
  | assign_statement l r =>
    intro c
    rw [statement_t.alloc]
    simp only [lvalue_alloc_eq, expression_alloc_eq, statement_t.node_count]
    rw [Nat.add_comm 1 (l.node_count + r.node_count), List.range'_succ]
    simp only [Prod.mk.injEq]
    refine ⟨?_, by omega⟩
    rw [Nat.add_comm l.node_count r.node_count, ← List.range'_append_1]
  | sequence_statement a b iha ihb =>
    intro c
    rw [statement_t.alloc]
    simp only [iha, ihb, statement_t.node_count]
    rw [Nat.add_comm 1 (a.node_count + b.node_count), List.range'_succ]
    simp only [Prod.mk.injEq]
    refine ⟨?_, by omega⟩
    rw [Nat.add_comm a.node_count b.node_count, ← List.range'_append_1]

theorem range'_disjoint (c1 n1 c2 n2 : Nat) (h : c1 + n1 ≤ c2) :
    List.Disjoint (List.range' c1 n1) (List.range' c2 n2) := by
  intro x h1 h2
  rcases List.mem_range'_1.mp h1 with ⟨_, hx1⟩
  rcases List.mem_range'_1.mp h2 with ⟨hx2, _⟩
  omega

theorem has_guarded_iff (sys : system_t) :
    has_guarded_weakly_synchronized_event sys = true ↔
      ∃ e, e ∈ sys.edges ∧ e.event_id ∈ sys.weakly_synchronized ∧
        e.guard ≠ const_true := by
  simp [has_guarded_weakly_synchronized_event, List.any_eq_true]

theorem has_guarded_replace (sys : system_t) (f : loc_t → expression_t)
    (g : edge_t → statement_t) :
    has_guarded_weakly_synchronized_event (replace_attributes sys f g) =
      has_guarded_weakly_synchronized_event sys := by
  simp only [has_guarded_weakly_synchronized_event, replace_attributes,
    List.any_map]
  rfl

theorem model_compile_system (sys : system_t) (vm : vm_variables_t) (log : log_t) :
    (model_compile sys vm log).1.system = sys := rfl

/-- Claim C1: model construction throws the runtime error System compilation
failure if and only if, after the full compilation pass over all location
invariants, edge guards and edge statements, the logger reports an error
count above zero; per-attribute errors are logged but never abort the pass
early (every location and edge still gets its typed slot filled), and
warnings alone never raise the error count. -/
theorem claim_C1 (sys : system_t) (log : log_t)
    (hw : has_guarded_weakly_synchronized_event sys = false) :
    (model_construct sys log = Except.error "System compilation failure" ↔
      0 < (model_compile sys vm_variables_t.mk log).2.error_count) ∧
    (∀ (lg : log_t) (c msg : String),
      (lg.warning c msg).error_count = lg.error_count) ∧
    (∀ loc, loc ∈ sys.locations → loc.id < sys.locations_count →
      (((model_compile sys vm_variables_t.mk log).1.typed_invariants.getD
        loc.id none).isSome = true)) ∧
    (∀ e, e ∈ sys.edges → e.id < sys.edges_count →
      (((model_compile sys vm_variables_t.mk log).1.typed_guards.getD
        e.id none).isSome = true) ∧
      (((model_compile sys vm_variables_t.mk log).1.typed_statements.getD
        e.id none).isSome = true)) := by
  refine ⟨?_, fun lg c msg => log_error_count_warning lg c msg,
    (model_typed_slots sys vm_variables_t.mk log).1,
    (model_typed_slots sys vm_variables_t.mk log).2⟩
  by_cases hc : 0 < (model_compile sys vm_variables_t.mk log).2.error_count
  · simp [model_construct, hw, hc]
  · simp [model_construct, hw, hc]

/-- Witness for claim C1: a system whose only invariant mentions an
undeclared identifier makes the silent compilation log an error, so
construction fails with the system compilation failure error. -/
theorem claim_C1_witness :
    model_construct bad_invariant_system log_t.nil =
      Except.error "System compilation failure" :=
  (claim_C1 bad_invariant_system log_t.nil (by decide)).1.mpr (by decide)

/-- Claim C2: a system with a weakly synchronized event on an edge whose
guard is not syntactically the constant-true expression is rejected with the
dedicated error, and the rejection is unchanged under any replacement of the
location invariants and edge statements: the check precedes all
type-checking and compilation work and no typed ASTs are produced. -/
theorem claim_C2 (sys : system_t) (log : log_t)
    (h : ∃ e, e ∈ sys.edges ∧ e.event_id ∈ sys.weakly_synchronized ∧
      e.guard ≠ const_true) :
    model_construct sys log =
      Except.error "Weakly synchronized event shall not be guarded" ∧
    ∀ (f : loc_t → expression_t) (g : edge_t → statement_t),
      model_construct (replace_attributes sys f g) log =
        Except.error "Weakly synchronized event shall not be guarded" := by
  have hw : has_guarded_weakly_synchronized_event sys = true :=
    (has_guarded_iff sys).mpr h
  constructor
  · simp [model_construct, hw]
  · intro f g
    have hw2 : has_guarded_weakly_synchronized_event
        (replace_attributes sys f g) = true := by
      rw [has_guarded_replace]; exact hw
    simp [model_construct, hw2]

/-- Witness for claim C2: the sample system with its event flagged weakly
synchronized is rejected with the dedicated error. -/
theorem claim_C2_witness :
    model_construct weak_sync_system log_t.nil =
      Except.error "Weakly synchronized event shall not be guarded" :=
  (claim_C2 weak_sync_system log_t.nil (by decide)).1

/-- Claim C3: after a successful construction over a well-formed system, the
typed invariant and invariant bytecode handles of every location and the
typed guard, guard bytecode, typed statement and statement bytecode handles
of every edge all return non-null values. -/
theorem claim_C3 (sys : system_t) (log : log_t) (m : model_state) (lg2 : log_t)
    (hwf : sys.wf) (hok : model_construct sys log = Except.ok (m, lg2)) :
    (∀ i, i < sys.locations_count →
      (m.typed_invariant i).isSome = true ∧
      (m.invariant_bytecode i).isSome = true) ∧
    (∀ j, j < sys.edges_count →
      (m.typed_guard j).isSome = true ∧
      (m.guard_bytecode j).isSome = true ∧
      (m.typed_statement j).isSome = true ∧
      (m.statement_bytecode j).isSome = true) := by
  rcases model_construct_ok_elim sys log m lg2 hok with ⟨hw, hm, hlg, hz⟩
  subst hm
  rcases model_lists_length sys vm_variables_t.mk log with ⟨l1, l2, l3, l4, l5, l6⟩
  rcases model_typed_slots sys vm_variables_t.mk log with ⟨t1, t2⟩
  rcases model_bytecode_slots sys vm_variables_t.mk log hz with ⟨b1, b2⟩
  constructor
  · intro i hi
    rcases hwf.1 i hi with ⟨loc, hmem, hid⟩
    subst hid
    constructor
    · simp only [model_state.typed_invariant, l2]
      rw [if_pos hi]
      exact t1 loc hmem hi
    · simp only [model_state.invariant_bytecode, l2]
      rw [if_pos hi]
      exact b1 loc hmem hi
  · intro j hj
    rcases hwf.2 j hj with ⟨e, hmem, hid⟩
    subst hid
    refine ⟨?_, ?_, ?_, ?_⟩
    · simp only [model_state.typed_guard, l4]
      rw [if_pos hj]
      exact (t2 e hmem hj).1
    · simp only [model_state.guard_bytecode, l4]
      rw [if_pos hj]
      exact (b2 e hmem hj).1
    · simp only [model_state.typed_statement, l6]
      rw [if_pos hj]
      exact (t2 e hmem hj).2
    · simp only [model_state.statement_bytecode, l6]
      rw [if_pos hj]
      exact (b2 e hmem hj).2

/-- Witness for claim C3: in the sample model both invariant handles of
location zero are non-null. -/
theorem claim_C3_witness :
    (sample_model.typed_invariant 0).isSome = true ∧
    (sample_model.invariant_bytecode 0).isSome = true :=
  (claim_C3 sample_system log_t.nil sample_model sample_model_log
    (by decide) (by rfl)).1 0 (by decide)

/-- Claim C4 counterexample: the claim that the bytecode compiler is run only
if the typed AST is not bad fails on the code. On a system whose invariant
types as bad the source pass logs two errors (the type error, then the
caught compiler error), while the pass written after the specification,
which skips the compiler on a bad typed AST, logs one; the two passes
disagree. -/
theorem claim_C4_counterexample :
    (typecheck_expression [] [] (expression_t.var_expr "z")).1.etype =
      expression_type_t.bad_t ∧
    (model_compile_invariants bad_invariant_system vm_variables_t.mk
      log_t.nil).2.2.error_count = 2 ∧
    (model_compile_invariants_guarded bad_invariant_system vm_variables_t.mk
      log_t.nil).2.2.error_count = 1 ∧
    (model_compile_invariants bad_invariant_system vm_variables_t.mk log_t.nil ≠
      model_compile_invariants_guarded bad_invariant_system vm_variables_t.mk
        log_t.nil) := by decide

/-- Claim C4 (amended): during construction the bytecode compiler is invoked
for every attribute unconditionally; for an attribute whose typed AST is bad
the compiler throws (the error is caught and logged) and the corresponding
bytecode slot is never filled. -/
theorem claim_C4_amended (sys : system_t) (vm : vm_variables_t) (log : log_t) :
    (∀ loc, loc ∈ sys.locations →
      (typecheck_expression (vm.intvars sys) (vm.clocks sys) loc.invariant).1.etype
          = expression_type_t.bad_t →
      compile_expression
          (typecheck_expression (vm.intvars sys) (vm.clocks sys) loc.invariant).1
        = Except.error "unexpected typed AST shape" ∧
      ((sys.locations.map loc_t.id).Nodup →
        (model_compile_invariants sys vm log).2.1.getD loc.id none = none)) ∧
    (∀ e, e ∈ sys.edges →
      (typecheck_expression (vm.intvars sys) (vm.clocks sys) e.guard).1.etype
          = expression_type_t.bad_t →
      compile_expression
          (typecheck_expression (vm.intvars sys) (vm.clocks sys) e.guard).1
        = Except.error "unexpected typed AST shape" ∧
      ((sys.edges.map edge_t.id).Nodup →
        (model_compile_guards sys vm log).2.1.getD e.id none = none)) ∧
    (∀ e, e ∈ sys.edges →
      (typecheck_statement (vm.intvars sys) (vm.clocks sys) e.statement).1.is_bad
          = true →
      (∃ msg, compile_statement
          (typecheck_statement (vm.intvars sys) (vm.clocks sys) e.statement).1
        = Except.error msg) ∧
      ((sys.edges.map edge_t.id).Nodup →
        (model_compile_statements sys vm log).2.1.getD e.id none = none)) := by
  refine ⟨?_, ?_, ?_⟩
  · intro loc hmem hbad
    have herr := compile_expression_bad _ hbad
    refine ⟨herr, fun hnd => ?_⟩
    simp only [model_compile_invariants, attribute_pass_split]
    exact pass_bc_none _ _ _ sys.locations _ hnd loc _ hmem herr
      (getD_replicate_none _ _)
  · intro e hmem hbad
    have herr := compile_expression_bad _ hbad
    refine ⟨herr, fun hnd => ?_⟩
    simp only [model_compile_guards, attribute_pass_split]
    exact pass_bc_none _ _ _ sys.edges _ hnd e _ hmem herr
      (getD_replicate_none _ _)
  · intro e hmem hbad
    rcases compile_statement_bad _ hbad with ⟨msg, herr⟩
    refine ⟨⟨msg, herr⟩, fun hnd => ?_⟩
    simp only [model_compile_statements, attribute_pass_split]
    exact pass_bc_none _ _ _ sys.edges _ hnd e _ hmem herr
      (getD_replicate_none _ _)

/-- Witness for the amended claim C4: the bad-invariant system leaves its
invariant bytecode slot null. -/
theorem claim_C4_amended_witness :
    ((⟨0, expression_t.var_expr "z"⟩ : loc_t) ∈ bad_invariant_system.locations) ∧
    ((typecheck_expression (vm_variables_t.mk.intvars bad_invariant_system)
        (vm_variables_t.mk.clocks bad_invariant_system)
        (expression_t.var_expr "z")).1.etype = expression_type_t.bad_t) ∧
    ((bad_invariant_system.locations.map loc_t.id).Nodup) ∧
    ((model_compile_invariants bad_invariant_system vm_variables_t.mk
        log_t.nil).2.1.getD 0 none = none) := by
  refine ⟨by decide, by decide, by decide, ?_⟩
  exact ((claim_C4_amended bad_invariant_system vm_variables_t.mk log_t.nil).1
    ⟨0, expression_t.var_expr "z"⟩ (by decide) (by decide)).2 (by decide)

/-- Claim C5: copy construction and copy assignment of a successfully
constructed model recompile the underlying system afresh, and the copy has
the same model state: bytecode buffers identical and typed ASTs printing
identically. -/
theorem claim_C5 (sys : system_t) (log : log_t) (m : model_state) (lg2 : log_t)
    (hok : model_construct sys log = Except.ok (m, lg2)) :
    ((model_copy_construct m).1 = m ∧
      (model_copy_construct m).1.invariants_bytecode = m.invariants_bytecode ∧
      (model_copy_construct m).1.guards_bytecode = m.guards_bytecode ∧
      (model_copy_construct m).1.statements_bytecode = m.statements_bytecode ∧
      (model_copy_construct m).1.typed_invariants.map
          (Option.map typed_expression_to_string) =
        m.typed_invariants.map (Option.map typed_expression_to_string) ∧
      (model_copy_construct m).1.typed_guards.map
          (Option.map typed_expression_to_string) =
        m.typed_guards.map (Option.map typed_expression_to_string) ∧
      (model_copy_construct m).1.typed_statements.map
          (Option.map typed_statement_to_string) =
        m.typed_statements.map (Option.map typed_statement_to_string)) ∧
    ∀ t : model_state, (model_copy_assign t m).1 = m := by
  rcases model_construct_ok_elim sys log m lg2 hok with ⟨hw, hm, hlg, hz⟩
  have hsys : m.system = sys := by rw [hm]; exact model_compile_system sys _ log
  have hfst : (model_compile sys vm_variables_t.mk log).1 =
      (model_compile sys vm_variables_t.mk log_t.nil).1 := by
    rw [model_compile_eq sys vm_variables_t.mk log]
  have hcopy : (model_copy_construct m).1 = m := by
    rw [model_copy_construct, hsys, hm, hfst]
  refine ⟨⟨hcopy, ?_, ?_, ?_, ?_, ?_, ?_⟩, ?_⟩ <;>
    try rw [hcopy]
  intro t
  have : model_copy_assign t m = model_compile sys vm_variables_t.mk log_t.nil := by
    rw [model_copy_assign, hsys]
  rw [this, ← hfst, ← hm]

/-- Witness for claim C5: copying the sample model reproduces it exactly. -/
theorem claim_C5_witness :
    (model_copy_construct sample_model).1 = sample_model :=
  ((claim_C5 sample_system log_t.nil sample_model sample_model_log (by rfl)).1).1

/-- Claim C6: for every in-range index the accessors return the stored
element of that index and their failure branch is unreachable; an
out-of-range index takes the precondition-violation branch. -/
theorem claim_C6 (sys : system_t) (log : log_t) (m : model_state) (lg2 : log_t)
    (hwf : sys.wf) (hok : model_construct sys log = Except.ok (m, lg2)) :
    (∀ i, i < sys.locations_count →
      m.typed_invariant i = m.typed_invariants.getD i none ∧
      m.typed_invariant i ≠ none ∧
      m.invariant_bytecode i = m.invariants_bytecode.getD i none ∧
      m.invariant_bytecode i ≠ none) ∧
    (∀ i, sys.locations_count ≤ i →
      m.typed_invariant i = none ∧ m.invariant_bytecode i = none) ∧
    (∀ j, j < sys.edges_count →
      m.typed_guard j = m.typed_guards.getD j none ∧
      m.typed_guard j ≠ none ∧
      m.guard_bytecode j = m.guards_bytecode.getD j none ∧
      m.guard_bytecode j ≠ none ∧
      m.typed_statement j = m.typed_statements.getD j none ∧
      m.typed_statement j ≠ none ∧
      m.statement_bytecode j = m.statements_bytecode.getD j none ∧
      m.statement_bytecode j ≠ none) ∧
    (∀ j, sys.edges_count ≤ j →
      m.typed_guard j = none ∧ m.guard_bytecode j = none ∧
      m.typed_statement j = none ∧ m.statement_bytecode j = none) := by
  rcases model_construct_ok_elim sys log m lg2 hok with ⟨hw, hm, hlg, hz⟩
  subst hm
  rcases model_lists_length sys vm_variables_t.mk log with ⟨l1, l2, l3, l4, l5, l6⟩
  rcases model_typed_slots sys vm_variables_t.mk log with ⟨t1, t2⟩
  rcases model_bytecode_slots sys vm_variables_t.mk log hz with ⟨b1, b2⟩
  refine ⟨?_, ?_, ?_, ?_⟩
  · intro i hi
    rcases hwf.1 i hi with ⟨loc, hmem, hid⟩
    subst hid
    refine ⟨?_, ?_, ?_, ?_⟩
    · simp only [model_state.typed_invariant, l2]
      rw [if_pos hi]
    · simp only [model_state.typed_invariant, l2]
      rw [if_pos hi]
      exact Option.isSome_iff_ne_none.mp (t1 loc hmem hi)
    · simp only [model_state.invariant_bytecode, l2]
      rw [if_pos hi]
    · simp only [model_state.invariant_bytecode, l2]
      rw [if_pos hi]
      exact Option.isSome_iff_ne_none.mp (b1 loc hmem hi)
  · intro i hi
    constructor
    · simp only [model_state.typed_invariant, l2]
      rw [if_neg (Nat.not_lt.mpr hi)]
    · simp only [model_state.invariant_bytecode, l2]
      rw [if_neg (Nat.not_lt.mpr hi)]
  · intro j hj
    rcases hwf.2 j hj with ⟨e, hmem, hid⟩
    subst hid
    refine ⟨?_, ?_, ?_, ?_, ?_, ?_, ?_, ?_⟩
    · simp only [model_state.typed_guard, l4]
      rw [if_pos hj]
    · simp only [model_state.typed_guard, l4]
      rw [if_pos hj]
      exact Option.isSome_iff_ne_none.mp (t2 e hmem hj).1
    · simp only [model_state.guard_bytecode, l4]
      rw [if_pos hj]
    · simp only [model_state.guard_bytecode, l4]
      rw [if_pos hj]
      exact Option.isSome_iff_ne_none.mp (b2 e hmem hj).1
    · simp only [model_state.typed_statement, l6]
      rw [if_pos hj]
    · simp only [model_state.typed_statement, l6]
      rw [if_pos hj]
      exact Option.isSome_iff_ne_none.mp (t2 e hmem hj).2
    · simp only [model_state.statement_bytecode, l6]
      rw [if_pos hj]
    · simp only [model_state.statement_bytecode, l6]
      rw [if_pos hj]
      exact Option.isSome_iff_ne_none.mp (b2 e hmem hj).2
  · intro j hj
    refine ⟨?_, ?_, ?_, ?_⟩
    · simp only [model_state.typed_guard, l4]
      rw [if_neg (Nat.not_lt.mpr hj)]
    · simp only [model_state.guard_bytecode, l4]
      rw [if_neg (Nat.not_lt.mpr hj)]
    · simp only [model_state.typed_statement, l6]
      rw [if_neg (Nat.not_lt.mpr hj)]
    · simp only [model_state.statement_bytecode, l6]
      rw [if_neg (Nat.not_lt.mpr hj)]

/-- Witness for claim C6: the edge accessors of the sample model at edge
zero return the stored elements and are non-null. -/
theorem claim_C6_witness :
    sample_model.typed_guard 0 = sample_model.typed_guards.getD 0 none ∧
    sample_model.typed_guard 0 ≠ none ∧
    sample_model.guard_bytecode 0 = sample_model.guards_bytecode.getD 0 none ∧
    sample_model.guard_bytecode 0 ≠ none ∧
    sample_model.typed_statement 0 = sample_model.typed_statements.getD 0 none ∧
    sample_model.typed_statement 0 ≠ none ∧
    sample_model.statement_bytecode 0 =
      sample_model.statements_bytecode.getD 0 none ∧
    sample_model.statement_bytecode 0 ≠ none :=
  (claim_C6 sample_system log_t.nil sample_model sample_model_log
    (by decide) (by rfl)).2.2.1 0 (by decide)

/-- Claim C7: constructing an assignment statement with a null lvalue or
null rvalue, or a sequence statement with a null first or second child,
throws std::invalid_argument at the AST boundary; with non-null children the
constructors succeed and the node takes ownership of both children. -/
theorem claim_C7 (l : lvalue_expression_t) (r : expression_t)
    (a b : statement_t) :
    assign_statement_construct none (some r) = Except.error "invalid_argument" ∧
    assign_statement_construct (some l) none = Except.error "invalid_argument" ∧
    assign_statement_construct none none = Except.error "invalid_argument" ∧
    assign_statement_construct (some l) (some r) =
      Except.ok (statement_t.assign_statement l r) ∧
    sequence_statement_construct none (some b) = Except.error "invalid_argument" ∧
    sequence_statement_construct (some a) none = Except.error "invalid_argument" ∧
    sequence_statement_construct none none = Except.error "invalid_argument" ∧
    sequence_statement_construct (some a) (some b) =
      Except.ok (statement_t.sequence_statement a b) :=
  ⟨rfl, rfl, rfl, rfl, rfl, rfl, rfl, rfl⟩

/-- Claim C8: cloning a statement yields a tree of the same shape that
pretty-prints identically, and, in the allocation model, a clone allocated
at fresh addresses shares no node with the original. -/
theorem claim_C8 (s : statement_t) (c1 c2 : Nat) (h : (s.alloc c1).2 ≤ c2) :
    s.clone = s ∧
    statement_to_string s.clone = statement_to_string s ∧
    List.Disjoint (s.alloc c1).1 (s.clone.alloc c2).1 := by
  refine ⟨statement_clone_eq s, by rw [statement_clone_eq], ?_⟩
  rw [statement_alloc_eq] at h
  rw [statement_clone_eq, statement_alloc_eq, statement_alloc_eq]
  exact range'_disjoint c1 s.node_count c2 s.node_count h

/-- Witness for claim C8 on a concrete assignment statement. -/
theorem claim_C8_witness :
    ((statement_t.assign_statement (lvalue_expression_t.var_expr "x")
        (expression_t.int_expr 1)).alloc 0).2 ≤ 3 ∧
    ((statement_t.assign_statement (lvalue_expression_t.var_expr "x")
        (expression_t.int_expr 1)).clone =
      statement_t.assign_statement (lvalue_expression_t.var_expr "x")
        (expression_t.int_expr 1) ∧
      statement_to_string ((statement_t.assign_statement
        (lvalue_expression_t.var_expr "x") (expression_t.int_expr 1)).clone) =
        statement_to_string (statement_t.assign_statement
          (lvalue_expression_t.var_expr "x") (expression_t.int_expr 1)) ∧
      List.Disjoint
        (((statement_t.assign_statement (lvalue_expression_t.var_expr "x")
          (expression_t.int_expr 1)).alloc 0).1)
        (((statement_t.assign_statement (lvalue_expression_t.var_expr "x")
          (expression_t.int_expr 1)).clone.alloc 3).1)) :=
  ⟨by decide, claim_C8 (statement_t.assign_statement
      (lvalue_expression_t.var_expr "x") (expression_t.int_expr 1)) 0 3 (by decide)⟩

/-- Claim C9: after a move, every per-element container of the source is
empty and the destination owns exactly the buffers the source held. -/
theorem claim_C9 (m : model_state) :
    (model_move m).2.typed_invariants = [] ∧
    (model_move m).2.typed_guards = [] ∧
    (model_move m).2.typed_statements = [] ∧
    (model_move m).2.invariants_bytecode = [] ∧
    (model_move m).2.guards_bytecode = [] ∧
    (model_move m).2.statements_bytecode = [] ∧
    (model_move m).1 = m :=
  ⟨rfl, rfl, rfl, rfl, rfl, rfl, rfl⟩

/-- Claim C10: recompiling the system of a successfully constructed model
with a fresh silent logger, as the copy constructor and the copy assignment
do, reports no error, so their assertion on the error count never fails. -/
theorem claim_C10 (sys : system_t) (log : log_t) (m : model_state) (lg2 : log_t)
    (hok : model_construct sys log = Except.ok (m, lg2)) :
    (model_copy_construct m).2.error_count = 0 ∧
    ∀ t : model_state, (model_copy_assign t m).2.error_count = 0 := by
  rcases model_construct_ok_elim sys log m lg2 hok with ⟨hw, hm, hlg, hz⟩
  have hsys : m.system = sys := by rw [hm]; exact model_compile_system sys _ log
  rcases model_delta_errors_of_zero sys vm_variables_t.mk log hz with ⟨h1, h2, h3⟩
  have hnil : (model_compile sys vm_variables_t.mk log_t.nil).2.error_count = 0 := by
    have hs : (model_compile sys vm_variables_t.mk log_t.nil).2 =
        log_t.nil.append (model_log_delta sys vm_variables_t.mk) := by
      rw [model_compile_eq sys vm_variables_t.mk log_t.nil]
    rw [hs, log_nil_append]
    simp [model_log_delta, log_t.append, log_t.error_count, h1, h2, h3]
  constructor
  · rw [model_copy_construct, hsys]
    exact hnil
  · intro t
    have : model_copy_assign t m = model_compile sys vm_variables_t.mk log_t.nil := by
      rw [model_copy_assign, hsys]
    rw [this]
    exact hnil

/-- Witness for claim C10: copying the sample model logs no error. -/
theorem claim_C10_witness :
    (model_copy_construct sample_model).2.error_count = 0 :=
  (claim_C10 sample_system log_t.nil sample_model sample_model_log (by rfl)).1

end tchecker
